import Mathlib

/-!
# Verification of the bin-it binary serialization codec

Shallow embedding of `src/lib.rs` (crate `bin-it`): a `BinaryWriter` that
appends typed values to a growable byte buffer in little-endian wire encoding,
and a `BinaryReader` that extracts typed values from a byte slice at a cursor.

Modelling conventions:
* A byte buffer is a `List Nat`; every byte produced by the writer is `< 256`,
  and theorems about reading arbitrary buffers carry that bound where needed.
* Rust `uN` values are `Nat` (bounded by `2 ^ N` in hypotheses), `iN` values are
  `Int` (bounded two's-complement ranges); `v as uN` / `v as iN` casts are
  `toUnsigned` / `toSigned`.
* `f32` / `f64` values are represented by their IEEE-754 bit patterns
  (`Nat < 2 ^ 32` / `< 2 ^ 64`): the code only moves the bytes produced by
  `to_le_bytes` / consumed by `from_le_bytes`, which are exactly the bit
  pattern in little-endian order, so byte-exact claims are claims about the
  bit pattern.
* Rust strings are represented by their UTF-8 byte lists; `String::from_utf8`
  validity is the executable `isValidUtf8` predicate below.
* A fallible reader method `fn f(&mut self) -> Result<T, String>` becomes a
  function `BinaryReader → Except String T × BinaryReader`: the second
  component is the reader state after the call (Rust mutates `self` in place,
  so the state after a *failed* call is observable and matters for the
  cursor claims).
* `read_bool`'s `panic!` on a byte other than 0/1 is a process abort, not a
  `Result`; it is modelled by the dedicated outcome type `BoolRead` with a
  `fatal` constructor.
-/

namespace BinIt

/-- Little-endian byte list of width `w` for value `v` (the bytes of
`v.to_le_bytes()` for a `w`-byte integer; each byte is `v / 256 ^ i % 256`). -/
def toLEBytes : Nat → Nat → List Nat
  | 0, _ => []
  | w + 1, v => v % 256 :: toLEBytes w (v / 256)

/-- Value of a little-endian byte list (`uN::from_le_bytes`). -/
def fromLEBytes : List Nat → Nat
  | [] => 0
  | b :: bs => b + 256 * fromLEBytes bs

/-- Reinterpret a `w`-bit unsigned value as signed two's-complement
(the Rust cast `v as iN` for `v : uN`). -/
def toSigned (w : Nat) (v : Nat) : Int :=
  if v < 2 ^ (w - 1) then (v : Int) else (v : Int) - 2 ^ w

/-- The `w`-bit two's-complement bit pattern of a signed value
(the Rust cast `v as uN` for `v : iN`). -/
def toUnsigned (w : Nat) (v : Int) : Nat :=
  (v % (2 ^ w : Int)).toNat

/-- Is `b` a UTF-8 continuation byte (`0x80..=0xBF`)? -/
def isUtf8Cont (b : Nat) : Bool :=
  0x80 ≤ b && b ≤ 0xBF

/-- Executable UTF-8 validity of a byte list, exactly the condition under which
Rust's `String::from_utf8` succeeds (shortest-form encodings only, no
surrogates, code points at most `U+10FFFF`). -/
def isValidUtf8 : List Nat → Bool
  | [] => true
  | b :: rest =>
    if b ≤ 0x7F then
      isValidUtf8 rest
    else if 0xC2 ≤ b && b ≤ 0xDF then
      match rest with
      | c1 :: rest1 => isUtf8Cont c1 && isValidUtf8 rest1
      | _ => false
    else if b == 0xE0 then
      match rest with
      | c1 :: c2 :: rest1 =>
        (0xA0 ≤ c1 && c1 ≤ 0xBF) && isUtf8Cont c2 && isValidUtf8 rest1
      | _ => false
    else if (0xE1 ≤ b && b ≤ 0xEC) || b == 0xEE || b == 0xEF then
      match rest with
      | c1 :: c2 :: rest1 => isUtf8Cont c1 && isUtf8Cont c2 && isValidUtf8 rest1
      | _ => false
    else if b == 0xED then
      match rest with
      | c1 :: c2 :: rest1 =>
        (0x80 ≤ c1 && c1 ≤ 0x9F) && isUtf8Cont c2 && isValidUtf8 rest1
      | _ => false
    else if b == 0xF0 then
      match rest with
      | c1 :: c2 :: c3 :: rest1 =>
        (0x90 ≤ c1 && c1 ≤ 0xBF) && isUtf8Cont c2 && isUtf8Cont c3 &&
          isValidUtf8 rest1
      | _ => false
    else if 0xF1 ≤ b && b ≤ 0xF3 then
      match rest with
      | c1 :: c2 :: c3 :: rest1 =>
        isUtf8Cont c1 && isUtf8Cont c2 && isUtf8Cont c3 && isValidUtf8 rest1
      | _ => false
    else if b == 0xF4 then
      match rest with
      | c1 :: c2 :: c3 :: rest1 =>
        (0x80 ≤ c1 && c1 ≤ 0x8F) && isUtf8Cont c2 && isUtf8Cont c3 &&
          isValidUtf8 rest1
      | _ => false
    else false

/-- `BinaryWriter` from `src/lib.rs`: a growable byte buffer. -/
structure BinaryWriter where
  data : List Nat
deriving DecidableEq

/-- `BinaryWriter::new`. -/
def BinaryWriter.new : BinaryWriter := ⟨[]⟩

/-- `BinaryWriter::get_data`: consume the writer, returning its buffer. -/
def BinaryWriter.get_data (w : BinaryWriter) : List Nat :=
  w.data

/-- `BinaryWriter::write_u8` (`v < 256` is the `u8` type invariant). -/
def BinaryWriter.write_u8 (w : BinaryWriter) (v : Nat) : BinaryWriter :=
  ⟨w.data ++ [v]⟩

/-- `BinaryWriter::write_u16`: `extend(&value.to_le_bytes())`. -/
def BinaryWriter.write_u16 (w : BinaryWriter) (v : Nat) : BinaryWriter :=
  ⟨w.data ++ toLEBytes 2 v⟩

/-- `BinaryWriter::write_u32`. -/
def BinaryWriter.write_u32 (w : BinaryWriter) (v : Nat) : BinaryWriter :=
  ⟨w.data ++ toLEBytes 4 v⟩

/-- `BinaryWriter::write_u64`. -/
def BinaryWriter.write_u64 (w : BinaryWriter) (v : Nat) : BinaryWriter :=
  ⟨w.data ++ toLEBytes 8 v⟩

/-- `BinaryWriter::write_i8`: `push(value as u8)`. -/
def BinaryWriter.write_i8 (w : BinaryWriter) (v : Int) : BinaryWriter :=
  ⟨w.data ++ [toUnsigned 8 v]⟩

/-- `BinaryWriter::write_i16`: LE bytes of the two's-complement bit pattern. -/
def BinaryWriter.write_i16 (w : BinaryWriter) (v : Int) : BinaryWriter :=
  ⟨w.data ++ toLEBytes 2 (toUnsigned 16 v)⟩

/-- `BinaryWriter::write_i32`. -/
def BinaryWriter.write_i32 (w : BinaryWriter) (v : Int) : BinaryWriter :=
  ⟨w.data ++ toLEBytes 4 (toUnsigned 32 v)⟩

/-- `BinaryWriter::write_i64`. -/
def BinaryWriter.write_i64 (w : BinaryWriter) (v : Int) : BinaryWriter :=
  ⟨w.data ++ toLEBytes 8 (toUnsigned 64 v)⟩

/-- `BinaryWriter::write_f32`: `bits` is the IEEE-754 bit pattern of the
`f32` value; `to_le_bytes` emits exactly its 4 little-endian bytes. -/
def BinaryWriter.write_f32 (w : BinaryWriter) (bits : Nat) : BinaryWriter :=
  ⟨w.data ++ toLEBytes 4 bits⟩

/-- `BinaryWriter::write_f64`: 8 little-endian bytes of the bit pattern. -/
def BinaryWriter.write_f64 (w : BinaryWriter) (bits : Nat) : BinaryWriter :=
  ⟨w.data ++ toLEBytes 8 bits⟩

/-- `BinaryWriter::write_bool`: one byte, `1` for true, `0` for false. -/
def BinaryWriter.write_bool (w : BinaryWriter) (v : Bool) : BinaryWriter :=
  ⟨w.data ++ [if v then 1 else 0]⟩

/-- `BinaryWriter::write_string`: `value.as_bytes()` is the UTF-8 byte list
`s`; writes `bytes.len() as u32` via `write_u32`, then extends with the bytes.
`toLEBytes 4` encodes `s.length % 2 ^ 32`, matching the `as u32` truncation. -/
def BinaryWriter.write_string (w : BinaryWriter) (s : List Nat) : BinaryWriter :=
  ⟨(w.write_u32 s.length).data ++ s⟩

/-- `BinaryWriter::write_vec_u8`: u32 length then extends with the raw
bytes. -/
def BinaryWriter.write_vec_u8 (w : BinaryWriter) (v : List Nat) : BinaryWriter :=
  ⟨(w.write_u32 v.length).data ++ v⟩

/-- `BinaryWriter::write_vec_u16`: u32 length, then a loop writing each
element with `write_u16`. -/
def BinaryWriter.write_vec_u16 (w : BinaryWriter) (v : List Nat) : BinaryWriter :=
  v.foldl BinaryWriter.write_u16 (w.write_u32 v.length)

/-- `BinaryWriter::write_vec_u32`. -/
def BinaryWriter.write_vec_u32 (w : BinaryWriter) (v : List Nat) : BinaryWriter :=
  v.foldl BinaryWriter.write_u32 (w.write_u32 v.length)

/-- `BinaryWriter::write_vec_u64`. -/
def BinaryWriter.write_vec_u64 (w : BinaryWriter) (v : List Nat) : BinaryWriter :=
  v.foldl BinaryWriter.write_u64 (w.write_u32 v.length)

/-- `BinaryWriter::write_vec_i8`: u32 length, then a loop writing each
element with `write_i8`. -/
def BinaryWriter.write_vec_i8 (w : BinaryWriter) (v : List Int) : BinaryWriter :=
  v.foldl BinaryWriter.write_i8 (w.write_u32 v.length)

/-- `BinaryWriter::write_vec_i16`. -/
def BinaryWriter.write_vec_i16 (w : BinaryWriter) (v : List Int) : BinaryWriter :=
  v.foldl BinaryWriter.write_i16 (w.write_u32 v.length)

/-- `BinaryWriter::write_vec_i32`. -/
def BinaryWriter.write_vec_i32 (w : BinaryWriter) (v : List Int) : BinaryWriter :=
  v.foldl BinaryWriter.write_i32 (w.write_u32 v.length)

/-- `BinaryWriter::write_vec_i64`. -/
def BinaryWriter.write_vec_i64 (w : BinaryWriter) (v : List Int) : BinaryWriter :=
  v.foldl BinaryWriter.write_i64 (w.write_u32 v.length)

/-- `BinaryWriter::write_vec_f32` (elements as bit patterns). -/
def BinaryWriter.write_vec_f32 (w : BinaryWriter) (v : List Nat) : BinaryWriter :=
  v.foldl BinaryWriter.write_f32 (w.write_u32 v.length)

/-- `BinaryWriter::write_vec_f64` (elements as bit patterns). -/
def BinaryWriter.write_vec_f64 (w : BinaryWriter) (v : List Nat) : BinaryWriter :=
  v.foldl BinaryWriter.write_f64 (w.write_u32 v.length)

/-- `BinaryWriter::write_vec_string`: u32 element count, then a loop writing
each string with `write_string`. -/
def BinaryWriter.write_vec_string (w : BinaryWriter) (v : List (List Nat)) : BinaryWriter :=
  v.foldl BinaryWriter.write_string (w.write_u32 v.length)

/-- `BinaryReader` from `src/lib.rs`: a borrowed byte slice plus a cursor. -/
structure BinaryReader where
  data : List Nat
  cursor : Nat
deriving DecidableEq

/-- `BinaryReader::new`. -/
def BinaryReader.new (data : List Nat) : BinaryReader :=
  ⟨data, 0⟩

/-- `BinaryReader::ensure_available`: error iff `cursor + size > data.len()`. -/
def BinaryReader.ensure_available (r : BinaryReader) (size : Nat) : Except String Unit :=
  if r.cursor + size > r.data.length then
    .error "Unexpected end of data"
  else
    .ok ()

/-- `BinaryReader::read_u8`. -/
def BinaryReader.read_u8 (r : BinaryReader) : Except String Nat × BinaryReader :=
  match r.ensure_available 1 with
  | .error e => (.error e, r)
  | .ok _ => (.ok (r.data.getD r.cursor 0), ⟨r.data, r.cursor + 1⟩)

/-- `BinaryReader::read_u16`: 2 LE bytes at the cursor. -/
def BinaryReader.read_u16 (r : BinaryReader) : Except String Nat × BinaryReader :=
  match r.ensure_available 2 with
  | .error e => (.error e, r)
  | .ok _ =>
    (.ok (fromLEBytes ((r.data.drop r.cursor).take 2)), ⟨r.data, r.cursor + 2⟩)

/-- `BinaryReader::read_u32`. -/
def BinaryReader.read_u32 (r : BinaryReader) : Except String Nat × BinaryReader :=
  match r.ensure_available 4 with
  | .error e => (.error e, r)
  | .ok _ =>
    (.ok (fromLEBytes ((r.data.drop r.cursor).take 4)), ⟨r.data, r.cursor + 4⟩)

/-- `BinaryReader::read_u64`. -/
def BinaryReader.read_u64 (r : BinaryReader) : Except String Nat × BinaryReader :=
  match r.ensure_available 8 with
  | .error e => (.error e, r)
  | .ok _ =>
    (.ok (fromLEBytes ((r.data.drop r.cursor).take 8)), ⟨r.data, r.cursor + 8⟩)

/-- `BinaryReader::read_i8`: `self.data[self.cursor] as i8`. -/
def BinaryReader.read_i8 (r : BinaryReader) : Except String Int × BinaryReader :=
  match r.ensure_available 1 with
  | .error e => (.error e, r)
  | .ok _ => (.ok (toSigned 8 (r.data.getD r.cursor 0)), ⟨r.data, r.cursor + 1⟩)

/-- `BinaryReader::read_i16`: `self.read_u16().map(|v| v as i16)`. -/
def BinaryReader.read_i16 (r : BinaryReader) : Except String Int × BinaryReader :=
  match r.read_u16 with
  | (.error e, r1) => (.error e, r1)
  | (.ok v, r1) => (.ok (toSigned 16 v), r1)

/-- `BinaryReader::read_i32`: `self.read_u32().map(|v| v as i32)`. -/
def BinaryReader.read_i32 (r : BinaryReader) : Except String Int × BinaryReader :=
  match r.read_u32 with
  | (.error e, r1) => (.error e, r1)
  | (.ok v, r1) => (.ok (toSigned 32 v), r1)

/-- `BinaryReader::read_i64`: `self.read_u64().map(|v| v as i64)`. -/
def BinaryReader.read_i64 (r : BinaryReader) : Except String Int × BinaryReader :=
  match r.read_u64 with
  | (.error e, r1) => (.error e, r1)
  | (.ok v, r1) => (.ok (toSigned 64 v), r1)

/-- `BinaryReader::read_f32`: 4 LE bytes, result as the IEEE-754 bit
pattern (`f32::from_le_bytes` is a byte-exact reinterpretation). -/
def BinaryReader.read_f32 (r : BinaryReader) : Except String Nat × BinaryReader :=
  match r.ensure_available 4 with
  | .error e => (.error e, r)
  | .ok _ =>
    (.ok (fromLEBytes ((r.data.drop r.cursor).take 4)), ⟨r.data, r.cursor + 4⟩)

/-- `BinaryReader::read_f64`. -/
def BinaryReader.read_f64 (r : BinaryReader) : Except String Nat × BinaryReader :=
  match r.ensure_available 8 with
  | .error e => (.error e, r)
  | .ok _ =>
    (.ok (fromLEBytes ((r.data.drop r.cursor).take 8)), ⟨r.data, r.cursor + 8⟩)

/-- Outcome of `BinaryReader::read_bool`: a decoded value, a recoverable
`Err` (truncation, from `read_u8`), or a process abort (`fatal`, Rust
`panic!`) on a byte other than 0/1. -/
inductive BoolRead where
  | ok (b : Bool)
  | err (e : String)
  | fatal (msg : String)
deriving DecidableEq

/-- `BinaryReader::read_bool`: `read_u8` then match 0 / 1 / `panic!`.
The paired reader state is the state at the moment of the outcome. -/
def BinaryReader.read_bool (r : BinaryReader) : BoolRead × BinaryReader :=
  match r.read_u8 with
  | (.error e, r1) => (.err e, r1)
  | (.ok 0, r1) => (.ok false, r1)
  | (.ok 1, r1) => (.ok true, r1)
  | (.ok v, r1) => (.fatal ("Invalid boolean value: " ++ toString v), r1)

/-- `BinaryReader::read_string`: u32 length, availability check, advance the
cursor past the declared region, and only then check UTF-8 validity — so an
invalid-UTF-8 error still leaves the cursor advanced. -/
def BinaryReader.read_string (r : BinaryReader) : Except String (List Nat) × BinaryReader :=
  match r.read_u32 with
  | (.error e, r1) => (.error e, r1)
  | (.ok length, r1) =>
    match r1.ensure_available length with
    | .error e => (.error e, r1)
    | .ok _ =>
      let bytes := (r1.data.drop r1.cursor).take length
      let r2 : BinaryReader := ⟨r1.data, r1.cursor + length⟩
      if isValidUtf8 bytes then (.ok bytes, r2)
      else (.error "invalid utf-8", r2)

/-- `BinaryReader::read_vec_u8`: u32 length, then a single availability check
for the whole payload and a slice copy (no per-element loop). -/
def BinaryReader.read_vec_u8 (r : BinaryReader) : Except String (List Nat) × BinaryReader :=
  match r.read_u32 with
  | (.error e, r1) => (.error e, r1)
  | (.ok length, r1) =>
    match r1.ensure_available length with
    | .error e => (.error e, r1)
    | .ok _ =>
      (.ok ((r1.data.drop r1.cursor).take length), ⟨r1.data, r1.cursor + length⟩)

/-- The reader's element loop `for _ in 0..length { vec.push(self.read_x()?) }`:
run `read` exactly `n` times, stopping at the first error (which is returned
together with the reader state at that point, as `?` does in Rust). -/
def readN {α : Type} (read : BinaryReader → Except String α × BinaryReader) :
    Nat → BinaryReader → Except String (List α) × BinaryReader
  | 0, r => (.ok [], r)
  | n + 1, r =>
    match read r with
    | (.error e, r1) => (.error e, r1)
    | (.ok v, r1) =>
      match readN read n r1 with
      | (.error e, r2) => (.error e, r2)
      | (.ok vs, r2) => (.ok (v :: vs), r2)

/-- `BinaryReader::read_vec_u16`: u32 count then that many `read_u16`. -/
def BinaryReader.read_vec_u16 (r : BinaryReader) : Except String (List Nat) × BinaryReader :=
  match r.read_u32 with
  | (.error e, r1) => (.error e, r1)
  | (.ok length, r1) => readN BinaryReader.read_u16 length r1

/-- `BinaryReader::read_vec_u32`. -/
def BinaryReader.read_vec_u32 (r : BinaryReader) : Except String (List Nat) × BinaryReader :=
  match r.read_u32 with
  | (.error e, r1) => (.error e, r1)
  | (.ok length, r1) => readN BinaryReader.read_u32 length r1

/-- `BinaryReader::read_vec_u64`. -/
def BinaryReader.read_vec_u64 (r : BinaryReader) : Except String (List Nat) × BinaryReader :=
  match r.read_u32 with
  | (.error e, r1) => (.error e, r1)
  | (.ok length, r1) => readN BinaryReader.read_u64 length r1

/-- `BinaryReader::read_vec_i8`: u32 count then that many `read_i8`. -/
def BinaryReader.read_vec_i8 (r : BinaryReader) : Except String (List Int) × BinaryReader :=
  match r.read_u32 with
  | (.error e, r1) => (.error e, r1)
  | (.ok length, r1) => readN BinaryReader.read_i8 length r1

/-- `BinaryReader::read_vec_i16`. -/
def BinaryReader.read_vec_i16 (r : BinaryReader) : Except String (List Int) × BinaryReader :=
  match r.read_u32 with
  | (.error e, r1) => (.error e, r1)
  | (.ok length, r1) => readN BinaryReader.read_i16 length r1

/-- `BinaryReader::read_vec_i32`. -/
def BinaryReader.read_vec_i32 (r : BinaryReader) : Except String (List Int) × BinaryReader :=
  match r.read_u32 with
  | (.error e, r1) => (.error e, r1)
  | (.ok length, r1) => readN BinaryReader.read_i32 length r1

/-- `BinaryReader::read_vec_i64`. -/
def BinaryReader.read_vec_i64 (r : BinaryReader) : Except String (List Int) × BinaryReader :=
  match r.read_u32 with
  | (.error e, r1) => (.error e, r1)
  | (.ok length, r1) => readN BinaryReader.read_i64 length r1

/-- `BinaryReader::read_vec_f32`. -/
def BinaryReader.read_vec_f32 (r : BinaryReader) : Except String (List Nat) × BinaryReader :=
  match r.read_u32 with
  | (.error e, r1) => (.error e, r1)
  | (.ok length, r1) => readN BinaryReader.read_f32 length r1

/-- `BinaryReader::read_vec_f64`. -/
def BinaryReader.read_vec_f64 (r : BinaryReader) : Except String (List Nat) × BinaryReader :=
  match r.read_u32 with
  | (.error e, r1) => (.error e, r1)
  | (.ok length, r1) => readN BinaryReader.read_f64 length r1

/-- `BinaryReader::read_vec_string`: u32 count then that many `read_string`. -/
def BinaryReader.read_vec_string (r : BinaryReader) : Except String (List (List Nat)) × BinaryReader :=
  match r.read_u32 with
  | (.error e, r1) => (.error e, r1)
  | (.ok length, r1) => readN BinaryReader.read_string length r1

/-- The kinds of the wire format, one per writer/reader operation pair. -/
inductive ValueKind where
  | kU8 | kI8 | kU16 | kI16 | kU32 | kI32 | kU64 | kI64 | kF32 | kF64 | kBool
  | kString
  | kVecU8 | kVecU16 | kVecU32 | kVecU64
  | kVecI8 | kVecI16 | kVecI32 | kVecI64
  | kVecF32 | kVecF64 | kVecString
deriving DecidableEq

/-- A supported value of any kind (floats as bit patterns, strings as UTF-8
byte lists), used to state mixed-kind write/read sequences. -/
inductive Value where
  | vU8 (v : Nat)
  | vI8 (v : Int)
  | vU16 (v : Nat)
  | vI16 (v : Int)
  | vU32 (v : Nat)
  | vI32 (v : Int)
  | vU64 (v : Nat)
  | vI64 (v : Int)
  | vF32 (bits : Nat)
  | vF64 (bits : Nat)
  | vBool (b : Bool)
  | vString (s : List Nat)
  | vVecU8 (v : List Nat)
  | vVecU16 (v : List Nat)
  | vVecU32 (v : List Nat)
  | vVecU64 (v : List Nat)
  | vVecI8 (v : List Int)
  | vVecI16 (v : List Int)
  | vVecI32 (v : List Int)
  | vVecI64 (v : List Int)
  | vVecF32 (v : List Nat)
  | vVecF64 (v : List Nat)
  | vVecString (v : List (List Nat))
deriving DecidableEq

/-- The kind of a value. -/
def Value.kind : Value → ValueKind
  | .vU8 _ => .kU8
  | .vI8 _ => .kI8
  | .vU16 _ => .kU16
  | .vI16 _ => .kI16
  | .vU32 _ => .kU32
  | .vI32 _ => .kI32
  | .vU64 _ => .kU64
  | .vI64 _ => .kI64
  | .vF32 _ => .kF32
  | .vF64 _ => .kF64
  | .vBool _ => .kBool
  | .vString _ => .kString
  | .vVecU8 _ => .kVecU8
  | .vVecU16 _ => .kVecU16
  | .vVecU32 _ => .kVecU32
  | .vVecU64 _ => .kVecU64
  | .vVecI8 _ => .kVecI8
  | .vVecI16 _ => .kVecI16
  | .vVecI32 _ => .kVecI32
  | .vVecI64 _ => .kVecI64
  | .vVecF32 _ => .kVecF32
  | .vVecF64 _ => .kVecF64
  | .vVecString _ => .kVecString

/-- Range invariant of a `u8` value. -/
def wfU8 (v : Nat) : Prop := v < 2 ^ 8

/-- Range invariant of a `u16` value. -/
def wfU16 (v : Nat) : Prop := v < 2 ^ 16

/-- Range invariant of a `u32` value. -/
def wfU32 (v : Nat) : Prop := v < 2 ^ 32

/-- Range invariant of a `u64` value. -/
def wfU64 (v : Nat) : Prop := v < 2 ^ 64

/-- Range invariant of an `i8` value. -/
def wfI8 (v : Int) : Prop := -(2 ^ 7) ≤ v ∧ v < 2 ^ 7

/-- Range invariant of an `i16` value. -/
def wfI16 (v : Int) : Prop := -(2 ^ 15) ≤ v ∧ v < 2 ^ 15

/-- Range invariant of an `i32` value. -/
def wfI32 (v : Int) : Prop := -(2 ^ 31) ≤ v ∧ v < 2 ^ 31

/-- Range invariant of an `i64` value. -/
def wfI64 (v : Int) : Prop := -(2 ^ 63) ≤ v ∧ v < 2 ^ 63

/-- Invariant of a Rust `String` represented by its UTF-8 bytes: valid UTF-8
with a byte length representable in the u32 length field. -/
def wfStr (s : List Nat) : Prop := isValidUtf8 s = true ∧ s.length < 2 ^ 32

/-- Type invariant of a value: each component is in the range of its Rust
type, and sequence lengths fit the u32 count field. -/
def Value.wf : Value → Prop
  | .vU8 v => wfU8 v
  | .vI8 v => wfI8 v
  | .vU16 v => wfU16 v
  | .vI16 v => wfI16 v
  | .vU32 v => wfU32 v
  | .vI32 v => wfI32 v
  | .vU64 v => wfU64 v
  | .vI64 v => wfI64 v
  | .vF32 bits => bits < 2 ^ 32
  | .vF64 bits => bits < 2 ^ 64
  | .vBool _ => True
  | .vString s => wfStr s
  | .vVecU8 v => v.length < 2 ^ 32 ∧ ∀ x ∈ v, wfU8 x
  | .vVecU16 v => v.length < 2 ^ 32 ∧ ∀ x ∈ v, wfU16 x
  | .vVecU32 v => v.length < 2 ^ 32 ∧ ∀ x ∈ v, wfU32 x
  | .vVecU64 v => v.length < 2 ^ 32 ∧ ∀ x ∈ v, wfU64 x
  | .vVecI8 v => v.length < 2 ^ 32 ∧ ∀ x ∈ v, wfI8 x
  | .vVecI16 v => v.length < 2 ^ 32 ∧ ∀ x ∈ v, wfI16 x
  | .vVecI32 v => v.length < 2 ^ 32 ∧ ∀ x ∈ v, wfI32 x
  | .vVecI64 v => v.length < 2 ^ 32 ∧ ∀ x ∈ v, wfI64 x
  | .vVecF32 v => v.length < 2 ^ 32 ∧ ∀ x ∈ v, x < 2 ^ 32
  | .vVecF64 v => v.length < 2 ^ 32 ∧ ∀ x ∈ v, x < 2 ^ 64
  | .vVecString v => v.length < 2 ^ 32 ∧ ∀ s ∈ v, wfStr s

/-- Dispatch a value to the writer method of its kind. -/
def writeValue (w : BinaryWriter) : Value → BinaryWriter
  | .vU8 v => w.write_u8 v
  | .vI8 v => w.write_i8 v
  | .vU16 v => w.write_u16 v
  | .vI16 v => w.write_i16 v
  | .vU32 v => w.write_u32 v
  | .vI32 v => w.write_i32 v
  | .vU64 v => w.write_u64 v
  | .vI64 v => w.write_i64 v
  | .vF32 bits => w.write_f32 bits
  | .vF64 bits => w.write_f64 bits
  | .vBool b => w.write_bool b
  | .vString s => w.write_string s
  | .vVecU8 v => w.write_vec_u8 v
  | .vVecU16 v => w.write_vec_u16 v
  | .vVecU32 v => w.write_vec_u32 v
  | .vVecU64 v => w.write_vec_u64 v
  | .vVecI8 v => w.write_vec_i8 v
  | .vVecI16 v => w.write_vec_i16 v
  | .vVecI32 v => w.write_vec_i32 v
  | .vVecI64 v => w.write_vec_i64 v
  | .vVecF32 v => w.write_vec_f32 v
  | .vVecF64 v => w.write_vec_f64 v
  | .vVecString v => w.write_vec_string v

/-- Write a list of values in order. -/
def writeValues (w : BinaryWriter) (vs : List Value) : BinaryWriter :=
  vs.foldl writeValue w

/-- Wrap a typed read result into a `Value` read result, leaving the reader
state and any error untouched. -/
def mapRead {α : Type} (f : α → Value) :
    Except String α × BinaryReader → Except String Value × BinaryReader
  | (.error e, r1) => (.error e, r1)
  | (.ok v, r1) => (.ok (f v), r1)

/-- Dispatch to the reader method of a kind. The `kBool` case maps the
`fatal` (panic) outcome to an error tagged `"panic: "`; that case aborts the
process in Rust and is unreachable on writer-produced input. -/
def readValue (k : ValueKind) (r : BinaryReader) : Except String Value × BinaryReader :=
  match k with
  | .kU8 => mapRead .vU8 r.read_u8
  | .kI8 => mapRead .vI8 r.read_i8
  | .kU16 => mapRead .vU16 r.read_u16
  | .kI16 => mapRead .vI16 r.read_i16
  | .kU32 => mapRead .vU32 r.read_u32
  | .kI32 => mapRead .vI32 r.read_i32
  | .kU64 => mapRead .vU64 r.read_u64
  | .kI64 => mapRead .vI64 r.read_i64
  | .kF32 => mapRead .vF32 r.read_f32
  | .kF64 => mapRead .vF64 r.read_f64
  | .kBool =>
    match r.read_bool with
    | (.ok b, r1) => (.ok (.vBool b), r1)
    | (.err e, r1) => (.error e, r1)
    | (.fatal m, r1) => (.error ("panic: " ++ m), r1)
  | .kString => mapRead .vString r.read_string
  | .kVecU8 => mapRead .vVecU8 r.read_vec_u8
  | .kVecU16 => mapRead .vVecU16 r.read_vec_u16
  | .kVecU32 => mapRead .vVecU32 r.read_vec_u32
  | .kVecU64 => mapRead .vVecU64 r.read_vec_u64
  | .kVecI8 => mapRead .vVecI8 r.read_vec_i8
  | .kVecI16 => mapRead .vVecI16 r.read_vec_i16
  | .kVecI32 => mapRead .vVecI32 r.read_vec_i32
  | .kVecI64 => mapRead .vVecI64 r.read_vec_i64
  | .kVecF32 => mapRead .vVecF32 r.read_vec_f32
  | .kVecF64 => mapRead .vVecF64 r.read_vec_f64
  | .kVecString => mapRead .vVecString r.read_vec_string

/-- Read a sequence of kinds in order, stopping at the first error. -/
def readValues : List ValueKind → BinaryReader → Except String (List Value) × BinaryReader
  | [], r => (.ok [], r)
  | k :: ks, r =>
    match readValue k r with
    | (.error e, r1) => (.error e, r1)
    | (.ok v, r1) =>
      match readValues ks r1 with
      | (.error e, r2) => (.error e, r2)
      | (.ok vs, r2) => (.ok (v :: vs), r2)

/-- The wire encoding of a value: the bytes its writer method appends. -/
def encValue : Value → List Nat
  | .vU8 v => [v]
  | .vI8 v => [toUnsigned 8 v]
  | .vU16 v => toLEBytes 2 v
  | .vI16 v => toLEBytes 2 (toUnsigned 16 v)
  | .vU32 v => toLEBytes 4 v
  | .vI32 v => toLEBytes 4 (toUnsigned 32 v)
  | .vU64 v => toLEBytes 8 v
  | .vI64 v => toLEBytes 8 (toUnsigned 64 v)
  | .vF32 bits => toLEBytes 4 bits
  | .vF64 bits => toLEBytes 8 bits
  | .vBool b => [if b then 1 else 0]
  | .vString s => toLEBytes 4 s.length ++ s
  | .vVecU8 v => toLEBytes 4 v.length ++ v
  | .vVecU16 v => toLEBytes 4 v.length ++ v.flatMap (toLEBytes 2)
  | .vVecU32 v => toLEBytes 4 v.length ++ v.flatMap (toLEBytes 4)
  | .vVecU64 v => toLEBytes 4 v.length ++ v.flatMap (toLEBytes 8)
  | .vVecI8 v => toLEBytes 4 v.length ++ v.flatMap (fun x => [toUnsigned 8 x])
  | .vVecI16 v => toLEBytes 4 v.length ++ v.flatMap (fun x => toLEBytes 2 (toUnsigned 16 x))
  | .vVecI32 v => toLEBytes 4 v.length ++ v.flatMap (fun x => toLEBytes 4 (toUnsigned 32 x))
  | .vVecI64 v => toLEBytes 4 v.length ++ v.flatMap (fun x => toLEBytes 8 (toUnsigned 64 x))
  | .vVecF32 v => toLEBytes 4 v.length ++ v.flatMap (toLEBytes 4)
  | .vVecF64 v => toLEBytes 4 v.length ++ v.flatMap (toLEBytes 8)
  | .vVecString v => toLEBytes 4 v.length ++ v.flatMap (fun s => toLEBytes 4 s.length ++ s)

/-- A reader operation keeps the buffer, never moves the cursor backwards,
and keeps it within bounds — whether it succeeds or fails. -/
def PreservesCursor {α : Type} (op : BinaryReader → Except String α × BinaryReader) : Prop :=
  ∀ r : BinaryReader, r.cursor ≤ r.data.length →
    (op r).2.data = r.data ∧ r.cursor ≤ (op r).2.cursor ∧ (op r).2.cursor ≤ r.data.length

/-- A successful reader operation keeps the buffer and advances the cursor by
exactly the byte size of the decoded value. -/
def AdvancesBy {α : Type} (op : BinaryReader → Except String α × BinaryReader)
    (size : α → Nat) : Prop :=
  ∀ r v r1, op r = (.ok v, r1) → r1.data = r.data ∧ r1.cursor = r.cursor + size v

/-! ### Little-endian encoding: basic lemmas -/

lemma toLEBytes_length (w v : Nat) : (toLEBytes w v).length = w := by
  induction w generalizing v with
  | zero => rfl
  | succ k ih => simp [toLEBytes, ih]

lemma fromLEBytes_toLEBytes (w v : Nat) :
    fromLEBytes (toLEBytes w v) = v % 2 ^ (8 * w) := by
  induction w generalizing v with
  | zero => simp [toLEBytes, fromLEBytes, Nat.mod_one]
  | succ k ih =>
    have hpow : (2 : Nat) ^ (8 * (k + 1)) = 256 * 2 ^ (8 * k) := by
      have h8 : 8 * (k + 1) = 8 * k + 8 := by ring
      rw [h8, pow_add]
      norm_num
      ring
    rw [hpow, Nat.mod_mul]
    simp [toLEBytes, fromLEBytes, ih]

lemma slice_at (pre mid post : List Nat) :
    ((pre ++ mid ++ post).drop pre.length).take mid.length = mid := by
  rw [List.append_assoc, List.drop_left, List.take_left]

lemma getD_at (pre : List Nat) (v : Nat) (post : List Nat) :
    (pre ++ v :: post).getD pre.length 0 = v := by
  induction pre with
  | nil => rfl
  | cons a l ih => simpa using ih

lemma getElem_at (pre : List Nat) (v : Nat) (post : List Nat)
    (h : pre.length < (pre ++ v :: post).length) :
    (pre ++ v :: post)[pre.length] = v := by
  induction pre with
  | nil => rfl
  | cons a l ih =>
    simp only [List.cons_append, List.length_cons, List.getElem_cons_succ]
    exact ih (by simp)

lemma take_len_append (w : Nat) (l1 l2 : List Nat) (h : l1.length = w) :
    (l1 ++ l2).take w = l1 := by
  subst h
  exact List.take_left l1 l2

lemma toUnsigned_lt (w : Nat) (v : Int) : toUnsigned w v < 2 ^ w := by
  unfold toUnsigned
  have h2 : (0 : Int) < 2 ^ w := by positivity
  have hlt := Int.emod_lt_of_pos v h2
  have h0 := Int.emod_nonneg v (ne_of_gt h2)
  have hcast : ((2 ^ w : Nat) : Int) = 2 ^ w := by push_cast; ring
  omega

lemma toSigned_toUnsigned (w : Nat) (hw : 0 < w) (v : Int)
    (h1 : -(2 ^ (w - 1)) ≤ v) (h2 : v < 2 ^ (w - 1)) :
    toSigned w (toUnsigned w v) = v := by
  obtain ⟨u, rfl⟩ : ∃ u, w = u + 1 := ⟨w - 1, by omega⟩
  unfold toSigned toUnsigned
  simp only [Nat.add_sub_cancel] at h1 h2 ⊢
  have hN : (0 : Int) < 2 ^ u := by positivity
  have hNN : (2 : Int) ^ (u + 1) = 2 * 2 ^ u := by ring
  have hcast : ((2 ^ u : Nat) : Int) = 2 ^ u := by push_cast; ring
  by_cases hv : 0 ≤ v
  · have hmod : v % 2 ^ (u + 1) = v := Int.emod_eq_of_lt hv (by omega)
    rw [hmod, if_pos (by omega)]
    omega
  · push_neg at hv
    have hmod : v % 2 ^ (u + 1) = v + 2 ^ (u + 1) := by
      have h3 : (v + 2 ^ (u + 1) * 1) % 2 ^ (u + 1) = v % 2 ^ (u + 1) :=
        Int.add_mul_emod_self_left v (2 ^ (u + 1)) 1
      rw [mul_one] at h3
      rw [← h3]
      exact Int.emod_eq_of_lt (by omega) (by omega)
    rw [hmod, if_neg (by omega)]
    omega

/-! ### Reading a freshly written value at the cursor -/

lemma ensure_ok (pre mid post : List Nat) :
    BinaryReader.ensure_available ⟨pre ++ mid ++ post, pre.length⟩ mid.length = .ok () := by
  unfold BinaryReader.ensure_available
  rw [if_neg (by simp only [List.length_append]; omega)]

lemma fixedRead_at (w : Nat)
    (read : BinaryReader → Except String Nat × BinaryReader)
    (hread : ∀ r, read r =
      match r.ensure_available w with
      | .error e => (.error e, r)
      | .ok _ =>
        (.ok (fromLEBytes ((r.data.drop r.cursor).take w)), ⟨r.data, r.cursor + w⟩))
    (pre post : List Nat) (v : Nat) (hv : v < 2 ^ (8 * w)) :
    read ⟨pre ++ toLEBytes w v ++ post, pre.length⟩ =
      (.ok v, ⟨pre ++ toLEBytes w v ++ post, pre.length + w⟩) := by
  rw [hread]
  have hok : BinaryReader.ensure_available ⟨pre ++ toLEBytes w v ++ post, pre.length⟩ w
      = .ok () := by
    have h := ensure_ok pre (toLEBytes w v) post
    rwa [toLEBytes_length] at h
  rw [hok]
  simp [take_len_append w (toLEBytes w v) post (toLEBytes_length w v),
    fromLEBytes_toLEBytes, Nat.mod_eq_of_lt hv]

lemma read_u8_at (pre post : List Nat) (v : Nat) :
    BinaryReader.read_u8 ⟨pre ++ [v] ++ post, pre.length⟩ =
      (.ok v, ⟨pre ++ [v] ++ post, pre.length + 1⟩) := by
  unfold BinaryReader.read_u8
  have hok := ensure_ok pre [v] post
  simp only [List.length_singleton] at hok
  rw [hok]
  simp [getElem_at]

lemma read_i8_at (pre post : List Nat) (v : Int) (h : wfI8 v) :
    BinaryReader.read_i8 ⟨pre ++ [toUnsigned 8 v] ++ post, pre.length⟩ =
      (.ok v, ⟨pre ++ [toUnsigned 8 v] ++ post, pre.length + 1⟩) := by
  unfold BinaryReader.read_i8
  have hok := ensure_ok pre [toUnsigned 8 v] post
  simp only [List.length_singleton] at hok
  rw [hok]
  simp [getElem_at, toSigned_toUnsigned 8 (by norm_num) v h.1 h.2]

lemma read_u16_at (pre post : List Nat) (v : Nat) (hv : v < 2 ^ 16) :
    BinaryReader.read_u16 ⟨pre ++ toLEBytes 2 v ++ post, pre.length⟩ =
      (.ok v, ⟨pre ++ toLEBytes 2 v ++ post, pre.length + 2⟩) :=
  fixedRead_at 2 BinaryReader.read_u16 (fun _ => rfl) pre post v (by norm_num at hv ⊢; omega)

lemma read_u32_at (pre post : List Nat) (v : Nat) (hv : v < 2 ^ 32) :
    BinaryReader.read_u32 ⟨pre ++ toLEBytes 4 v ++ post, pre.length⟩ =
      (.ok v, ⟨pre ++ toLEBytes 4 v ++ post, pre.length + 4⟩) :=
  fixedRead_at 4 BinaryReader.read_u32 (fun _ => rfl) pre post v (by norm_num at hv ⊢; omega)

lemma read_u64_at (pre post : List Nat) (v : Nat) (hv : v < 2 ^ 64) :
    BinaryReader.read_u64 ⟨pre ++ toLEBytes 8 v ++ post, pre.length⟩ =
      (.ok v, ⟨pre ++ toLEBytes 8 v ++ post, pre.length + 8⟩) :=
  fixedRead_at 8 BinaryReader.read_u64 (fun _ => rfl) pre post v (by norm_num at hv ⊢; omega)

lemma read_f32_at (pre post : List Nat) (bits : Nat) (hv : bits < 2 ^ 32) :
    BinaryReader.read_f32 ⟨pre ++ toLEBytes 4 bits ++ post, pre.length⟩ =
      (.ok bits, ⟨pre ++ toLEBytes 4 bits ++ post, pre.length + 4⟩) :=
  fixedRead_at 4 BinaryReader.read_f32 (fun _ => rfl) pre post bits (by norm_num at hv ⊢; omega)

lemma read_f64_at (pre post : List Nat) (bits : Nat) (hv : bits < 2 ^ 64) :
    BinaryReader.read_f64 ⟨pre ++ toLEBytes 8 bits ++ post, pre.length⟩ =
      (.ok bits, ⟨pre ++ toLEBytes 8 bits ++ post, pre.length + 8⟩) :=
  fixedRead_at 8 BinaryReader.read_f64 (fun _ => rfl) pre post bits (by norm_num at hv ⊢; omega)

lemma read_i16_at (pre post : List Nat) (v : Int) (h : wfI16 v) :
    BinaryReader.read_i16 ⟨pre ++ toLEBytes 2 (toUnsigned 16 v) ++ post, pre.length⟩ =
      (.ok v, ⟨pre ++ toLEBytes 2 (toUnsigned 16 v) ++ post, pre.length + 2⟩) := by
  unfold BinaryReader.read_i16
  rw [read_u16_at pre post (toUnsigned 16 v) (toUnsigned_lt 16 v)]
  simp [toSigned_toUnsigned 16 (by norm_num) v h.1 h.2]

lemma read_i32_at (pre post : List Nat) (v : Int) (h : wfI32 v) :
    BinaryReader.read_i32 ⟨pre ++ toLEBytes 4 (toUnsigned 32 v) ++ post, pre.length⟩ =
      (.ok v, ⟨pre ++ toLEBytes 4 (toUnsigned 32 v) ++ post, pre.length + 4⟩) := by
  unfold BinaryReader.read_i32
  rw [read_u32_at pre post (toUnsigned 32 v) (toUnsigned_lt 32 v)]
  simp [toSigned_toUnsigned 32 (by norm_num) v h.1 h.2]

lemma read_i64_at (pre post : List Nat) (v : Int) (h : wfI64 v) :
    BinaryReader.read_i64 ⟨pre ++ toLEBytes 8 (toUnsigned 64 v) ++ post, pre.length⟩ =
      (.ok v, ⟨pre ++ toLEBytes 8 (toUnsigned 64 v) ++ post, pre.length + 8⟩) := by
  unfold BinaryReader.read_i64
  rw [read_u64_at pre post (toUnsigned 64 v) (toUnsigned_lt 64 v)]
  simp [toSigned_toUnsigned 64 (by norm_num) v h.1 h.2]

lemma read_bool_at (pre post : List Nat) (b : Bool) :
    BinaryReader.read_bool ⟨pre ++ [if b then 1 else 0] ++ post, pre.length⟩ =
      (.ok b, ⟨pre ++ [if b then 1 else 0] ++ post, pre.length + 1⟩) := by
  cases b <;>
    (unfold BinaryReader.read_bool; rw [read_u8_at]; simp)

lemma read_string_at (pre post s : List Nat) (h : wfStr s) :
    BinaryReader.read_string ⟨pre ++ (toLEBytes 4 s.length ++ s) ++ post, pre.length⟩ =
      (.ok s, ⟨pre ++ (toLEBytes 4 s.length ++ s) ++ post,
        pre.length + (4 + s.length)⟩) := by
  have hassoc : pre ++ (toLEBytes 4 s.length ++ s) ++ post
      = pre ++ toLEBytes 4 s.length ++ (s ++ post) := by simp
  rw [hassoc]
  unfold BinaryReader.read_string
  rw [read_u32_at pre (s ++ post) s.length h.2]
  have hok : BinaryReader.ensure_available
      ⟨pre ++ (toLEBytes 4 s.length ++ (s ++ post)), pre.length + 4⟩ s.length = .ok () := by
    unfold BinaryReader.ensure_available
    rw [if_neg (by simp only [List.length_append, toLEBytes_length]; omega)]
  have hdrop : (toLEBytes 4 s.length ++ (s ++ post)).drop 4 = s ++ post := by
    have hd := List.drop_left (toLEBytes 4 s.length) (s ++ post)
    rwa [toLEBytes_length] at hd
  have htake : (s ++ post).take s.length = s := take_len_append s.length s post rfl
  simp [hok, hdrop, htake, h.1, Nat.add_assoc]

lemma read_vec_u8_at (pre post v : List Nat) (hlen : v.length < 2 ^ 32) :
    BinaryReader.read_vec_u8 ⟨pre ++ (toLEBytes 4 v.length ++ v) ++ post, pre.length⟩ =
      (.ok v, ⟨pre ++ (toLEBytes 4 v.length ++ v) ++ post,
        pre.length + (4 + v.length)⟩) := by
  have hassoc : pre ++ (toLEBytes 4 v.length ++ v) ++ post
      = pre ++ toLEBytes 4 v.length ++ (v ++ post) := by simp
  rw [hassoc]
  unfold BinaryReader.read_vec_u8
  rw [read_u32_at pre (v ++ post) v.length hlen]
  have hok : BinaryReader.ensure_available
      ⟨pre ++ (toLEBytes 4 v.length ++ (v ++ post)), pre.length + 4⟩ v.length = .ok () := by
    unfold BinaryReader.ensure_available
    rw [if_neg (by simp only [List.length_append, toLEBytes_length]; omega)]
  have hdrop : (toLEBytes 4 v.length ++ (v ++ post)).drop 4 = v ++ post := by
    have hd := List.drop_left (toLEBytes 4 v.length) (v ++ post)
    rwa [toLEBytes_length] at hd
  have htake : (v ++ post).take v.length = v := take_len_append v.length v post rfl
  simp [hok, hdrop, htake, Nat.add_assoc]

lemma readN_at {α : Type} (read : BinaryReader → Except String α × BinaryReader)
    (enc : α → List Nat) (wf : α → Prop)
    (hread : ∀ (x : α) (pre post : List Nat), wf x →
      read ⟨pre ++ enc x ++ post, pre.length⟩ =
        (.ok x, ⟨pre ++ enc x ++ post, pre.length + (enc x).length⟩)) :
    ∀ (xs : List α) (pre post : List Nat), (∀ x ∈ xs, wf x) →
      readN read xs.length ⟨pre ++ xs.flatMap enc ++ post, pre.length⟩ =
        (.ok xs, ⟨pre ++ xs.flatMap enc ++ post,
          pre.length + (xs.flatMap enc).length⟩) := by
  intro xs
  induction xs with
  | nil => intro pre post _; simp [readN]
  | cons x xs ih =>
    intro pre post h
    have hx : wf x := h x (by simp)
    have hxs : ∀ y ∈ xs, wf y := fun y hy => h y (by simp [hy])
    have hb : pre ++ (x :: xs).flatMap enc ++ post
        = pre ++ enc x ++ (xs.flatMap enc ++ post) := by
      simp [List.append_assoc]
    rw [hb]
    simp only [List.length_cons, readN]
    rw [hread x pre (xs.flatMap enc ++ post) hx]
    have hI := ih (pre ++ enc x) post hxs
    simp only [List.append_assoc, List.length_append] at hI
    simp [hI, Nat.add_assoc]

lemma vecRead_at {α : Type}
    (read : BinaryReader → Except String α × BinaryReader)
    (vecRead : BinaryReader → Except String (List α) × BinaryReader)
    (hvec : ∀ r, vecRead r = match r.read_u32 with
      | (.error e, r1) => (.error e, r1)
      | (.ok n, r1) => readN read n r1)
    (enc : α → List Nat) (wf : α → Prop)
    (hread : ∀ (x : α) (pre post : List Nat), wf x →
      read ⟨pre ++ enc x ++ post, pre.length⟩ =
        (.ok x, ⟨pre ++ enc x ++ post, pre.length + (enc x).length⟩))
    (pre post : List Nat) (xs : List α) (hlen : xs.length < 2 ^ 32)
    (hwf : ∀ x ∈ xs, wf x) :
    vecRead ⟨pre ++ (toLEBytes 4 xs.length ++ xs.flatMap enc) ++ post, pre.length⟩ =
      (.ok xs, ⟨pre ++ (toLEBytes 4 xs.length ++ xs.flatMap enc) ++ post,
        pre.length + (4 + (xs.flatMap enc).length)⟩) := by
  have hassoc : pre ++ (toLEBytes 4 xs.length ++ xs.flatMap enc) ++ post
      = pre ++ toLEBytes 4 xs.length ++ (xs.flatMap enc ++ post) := by simp
  rw [hassoc, hvec]
  rw [read_u32_at pre (xs.flatMap enc ++ post) xs.length hlen]
  have h4 : (pre ++ toLEBytes 4 xs.length).length = pre.length + 4 := by
    simp [toLEBytes_length]
  have hrn := readN_at read enc wf hread xs (pre ++ toLEBytes 4 xs.length) post hwf
  rw [h4] at hrn
  simp only [List.append_assoc] at hrn ⊢
  simp [hrn, Nat.add_assoc]

/-! ### Writer buffers -/

lemma foldl_write {α : Type} (write : BinaryWriter → α → BinaryWriter)
    (enc : α → List Nat) (h : ∀ (w : BinaryWriter) (x : α), (write w x).data = w.data ++ enc x) :
    ∀ (xs : List α) (w : BinaryWriter),
      (xs.foldl write w).data = w.data ++ xs.flatMap enc := by
  intro xs
  induction xs with
  | nil => intro w; simp
  | cons x xs ih =>
    intro w
    simp only [List.foldl_cons, List.flatMap_cons]
    rw [ih (write w x), h]
    simp

lemma write_vec_u16_data (w : BinaryWriter) (v : List Nat) :
    (w.write_vec_u16 v).data
      = w.data ++ (toLEBytes 4 v.length ++ v.flatMap (toLEBytes 2)) := by
  unfold BinaryWriter.write_vec_u16
  rw [foldl_write BinaryWriter.write_u16 (toLEBytes 2) (fun _ _ => rfl)]
  simp [BinaryWriter.write_u32]

lemma write_vec_u32_data (w : BinaryWriter) (v : List Nat) :
    (w.write_vec_u32 v).data
      = w.data ++ (toLEBytes 4 v.length ++ v.flatMap (toLEBytes 4)) := by
  unfold BinaryWriter.write_vec_u32
  rw [foldl_write BinaryWriter.write_u32 (toLEBytes 4) (fun _ _ => rfl)]
  simp [BinaryWriter.write_u32]

lemma write_vec_u64_data (w : BinaryWriter) (v : List Nat) :
    (w.write_vec_u64 v).data
      = w.data ++ (toLEBytes 4 v.length ++ v.flatMap (toLEBytes 8)) := by
  unfold BinaryWriter.write_vec_u64
  rw [foldl_write BinaryWriter.write_u64 (toLEBytes 8) (fun _ _ => rfl)]
  simp [BinaryWriter.write_u32]

lemma write_vec_i8_data (w : BinaryWriter) (v : List Int) :
    (w.write_vec_i8 v).data
      = w.data ++ (toLEBytes 4 v.length ++ v.flatMap (fun x => [toUnsigned 8 x])) := by
  unfold BinaryWriter.write_vec_i8
  rw [foldl_write BinaryWriter.write_i8 (fun x => [toUnsigned 8 x]) (fun _ _ => rfl)]
  simp [BinaryWriter.write_u32]

lemma write_vec_i16_data (w : BinaryWriter) (v : List Int) :
    (w.write_vec_i16 v).data
      = w.data ++ (toLEBytes 4 v.length ++ v.flatMap (fun x => toLEBytes 2 (toUnsigned 16 x))) := by
  unfold BinaryWriter.write_vec_i16
  rw [foldl_write BinaryWriter.write_i16 (fun x => toLEBytes 2 (toUnsigned 16 x)) (fun _ _ => rfl)]
  simp [BinaryWriter.write_u32]

lemma write_vec_i32_data (w : BinaryWriter) (v : List Int) :
    (w.write_vec_i32 v).data
      = w.data ++ (toLEBytes 4 v.length ++ v.flatMap (fun x => toLEBytes 4 (toUnsigned 32 x))) := by
  unfold BinaryWriter.write_vec_i32
  rw [foldl_write BinaryWriter.write_i32 (fun x => toLEBytes 4 (toUnsigned 32 x)) (fun _ _ => rfl)]
  simp [BinaryWriter.write_u32]

lemma write_vec_i64_data (w : BinaryWriter) (v : List Int) :
    (w.write_vec_i64 v).data
      = w.data ++ (toLEBytes 4 v.length ++ v.flatMap (fun x => toLEBytes 8 (toUnsigned 64 x))) := by
  unfold BinaryWriter.write_vec_i64
  rw [foldl_write BinaryWriter.write_i64 (fun x => toLEBytes 8 (toUnsigned 64 x)) (fun _ _ => rfl)]
  simp [BinaryWriter.write_u32]

lemma write_vec_f32_data (w : BinaryWriter) (v : List Nat) :
    (w.write_vec_f32 v).data
      = w.data ++ (toLEBytes 4 v.length ++ v.flatMap (toLEBytes 4)) := by
  unfold BinaryWriter.write_vec_f32
  rw [foldl_write BinaryWriter.write_f32 (toLEBytes 4) (fun _ _ => rfl)]
  simp [BinaryWriter.write_u32]

lemma write_vec_f64_data (w : BinaryWriter) (v : List Nat) :
    (w.write_vec_f64 v).data
      = w.data ++ (toLEBytes 4 v.length ++ v.flatMap (toLEBytes 8)) := by
  unfold BinaryWriter.write_vec_f64
  rw [foldl_write BinaryWriter.write_f64 (toLEBytes 8) (fun _ _ => rfl)]
  simp [BinaryWriter.write_u32]

lemma write_string_data (w : BinaryWriter) (s : List Nat) :
    (w.write_string s).data = w.data ++ (toLEBytes 4 s.length ++ s) := by
  simp [BinaryWriter.write_string, BinaryWriter.write_u32]

lemma write_vec_string_data (w : BinaryWriter) (v : List (List Nat)) :
    (w.write_vec_string v).data
      = w.data ++ (toLEBytes 4 v.length ++ v.flatMap (fun s => toLEBytes 4 s.length ++ s)) := by
  unfold BinaryWriter.write_vec_string
  rw [foldl_write BinaryWriter.write_string (fun s => toLEBytes 4 s.length ++ s)
    write_string_data]
  simp [BinaryWriter.write_u32]

lemma writeValue_data (w : BinaryWriter) (v : Value) :
    (writeValue w v).data = w.data ++ encValue v := by
  cases v with
  | vU8 x => rfl
  | vI8 x => rfl
  | vU16 x => rfl
  | vI16 x => rfl
  | vU32 x => rfl
  | vI32 x => rfl
  | vU64 x => rfl
  | vI64 x => rfl
  | vF32 x => rfl
  | vF64 x => rfl
  | vBool b => rfl
  | vString s => simp [writeValue, encValue, write_string_data]
  | vVecU8 x => simp [writeValue, encValue, BinaryWriter.write_vec_u8, BinaryWriter.write_u32]
  | vVecU16 x => simp [writeValue, encValue, write_vec_u16_data]
  | vVecU32 x => simp [writeValue, encValue, write_vec_u32_data]
  | vVecU64 x => simp [writeValue, encValue, write_vec_u64_data]
  | vVecI8 x => simp [writeValue, encValue, write_vec_i8_data]
  | vVecI16 x => simp [writeValue, encValue, write_vec_i16_data]
  | vVecI32 x => simp [writeValue, encValue, write_vec_i32_data]
  | vVecI64 x => simp [writeValue, encValue, write_vec_i64_data]
  | vVecF32 x => simp [writeValue, encValue, write_vec_f32_data]
  | vVecF64 x => simp [writeValue, encValue, write_vec_f64_data]
  | vVecString x => simp [writeValue, encValue, write_vec_string_data]

lemma writeValues_data (w : BinaryWriter) (vs : List Value) :
    (writeValues w vs).data = w.data ++ vs.flatMap encValue :=
  foldl_write writeValue encValue writeValue_data vs w

/-! ### Reading vectors of each element kind at the cursor -/

lemma read_vec_u16_at (pre post : List Nat) (v : List Nat)
    (hlen : v.length < 2 ^ 32) (hwf : ∀ x ∈ v, wfU16 x) :
    BinaryReader.read_vec_u16
        ⟨pre ++ (toLEBytes 4 v.length ++ v.flatMap (toLEBytes 2)) ++ post, pre.length⟩ =
      (.ok v, ⟨pre ++ (toLEBytes 4 v.length ++ v.flatMap (toLEBytes 2)) ++ post,
        pre.length + (4 + (v.flatMap (toLEBytes 2)).length)⟩) :=
  vecRead_at BinaryReader.read_u16 BinaryReader.read_vec_u16 (fun _ => rfl)
    (toLEBytes 2) wfU16
    (fun x p q hx => by simpa [toLEBytes_length] using read_u16_at p q x hx)
    pre post v hlen hwf

lemma read_vec_u32_at (pre post : List Nat) (v : List Nat)
    (hlen : v.length < 2 ^ 32) (hwf : ∀ x ∈ v, wfU32 x) :
    BinaryReader.read_vec_u32
        ⟨pre ++ (toLEBytes 4 v.length ++ v.flatMap (toLEBytes 4)) ++ post, pre.length⟩ =
      (.ok v, ⟨pre ++ (toLEBytes 4 v.length ++ v.flatMap (toLEBytes 4)) ++ post,
        pre.length + (4 + (v.flatMap (toLEBytes 4)).length)⟩) :=
  vecRead_at BinaryReader.read_u32 BinaryReader.read_vec_u32 (fun _ => rfl)
    (toLEBytes 4) wfU32
    (fun x p q hx => by simpa [toLEBytes_length] using read_u32_at p q x hx)
    pre post v hlen hwf

lemma read_vec_u64_at (pre post : List Nat) (v : List Nat)
    (hlen : v.length < 2 ^ 32) (hwf : ∀ x ∈ v, wfU64 x) :
    BinaryReader.read_vec_u64
        ⟨pre ++ (toLEBytes 4 v.length ++ v.flatMap (toLEBytes 8)) ++ post, pre.length⟩ =
      (.ok v, ⟨pre ++ (toLEBytes 4 v.length ++ v.flatMap (toLEBytes 8)) ++ post,
        pre.length + (4 + (v.flatMap (toLEBytes 8)).length)⟩) :=
  vecRead_at BinaryReader.read_u64 BinaryReader.read_vec_u64 (fun _ => rfl)
    (toLEBytes 8) wfU64
    (fun x p q hx => by simpa [toLEBytes_length] using read_u64_at p q x hx)
    pre post v hlen hwf

lemma read_vec_i8_at (pre post : List Nat) (v : List Int)
    (hlen : v.length < 2 ^ 32) (hwf : ∀ x ∈ v, wfI8 x) :
    BinaryReader.read_vec_i8
        ⟨pre ++ (toLEBytes 4 v.length ++ v.flatMap (fun x => [toUnsigned 8 x])) ++ post,
          pre.length⟩ =
      (.ok v, ⟨pre ++ (toLEBytes 4 v.length ++ v.flatMap (fun x => [toUnsigned 8 x])) ++ post,
        pre.length + (4 + (v.flatMap (fun x => [toUnsigned 8 x])).length)⟩) :=
  vecRead_at BinaryReader.read_i8 BinaryReader.read_vec_i8 (fun _ => rfl)
    (fun x => [toUnsigned 8 x]) wfI8
    (fun x p q hx => by simpa using read_i8_at p q x hx)
    pre post v hlen hwf

lemma read_vec_i16_at (pre post : List Nat) (v : List Int)
    (hlen : v.length < 2 ^ 32) (hwf : ∀ x ∈ v, wfI16 x) :
    BinaryReader.read_vec_i16
        ⟨pre ++ (toLEBytes 4 v.length ++ v.flatMap (fun x => toLEBytes 2 (toUnsigned 16 x)))
          ++ post, pre.length⟩ =
      (.ok v,
        ⟨pre ++ (toLEBytes 4 v.length ++ v.flatMap (fun x => toLEBytes 2 (toUnsigned 16 x)))
          ++ post,
         pre.length + (4 + (v.flatMap (fun x => toLEBytes 2 (toUnsigned 16 x))).length)⟩) :=
  vecRead_at BinaryReader.read_i16 BinaryReader.read_vec_i16 (fun _ => rfl)
    (fun x => toLEBytes 2 (toUnsigned 16 x)) wfI16
    (fun x p q hx => by simpa [toLEBytes_length] using read_i16_at p q x hx)
    pre post v hlen hwf

lemma read_vec_i32_at (pre post : List Nat) (v : List Int)
    (hlen : v.length < 2 ^ 32) (hwf : ∀ x ∈ v, wfI32 x) :
    BinaryReader.read_vec_i32
        ⟨pre ++ (toLEBytes 4 v.length ++ v.flatMap (fun x => toLEBytes 4 (toUnsigned 32 x)))
          ++ post, pre.length⟩ =
      (.ok v,
        ⟨pre ++ (toLEBytes 4 v.length ++ v.flatMap (fun x => toLEBytes 4 (toUnsigned 32 x)))
          ++ post,
         pre.length + (4 + (v.flatMap (fun x => toLEBytes 4 (toUnsigned 32 x))).length)⟩) :=
  vecRead_at BinaryReader.read_i32 BinaryReader.read_vec_i32 (fun _ => rfl)
    (fun x => toLEBytes 4 (toUnsigned 32 x)) wfI32
    (fun x p q hx => by simpa [toLEBytes_length] using read_i32_at p q x hx)
    pre post v hlen hwf

lemma read_vec_i64_at (pre post : List Nat) (v : List Int)
    (hlen : v.length < 2 ^ 32) (hwf : ∀ x ∈ v, wfI64 x) :
    BinaryReader.read_vec_i64
        ⟨pre ++ (toLEBytes 4 v.length ++ v.flatMap (fun x => toLEBytes 8 (toUnsigned 64 x)))
          ++ post, pre.length⟩ =
      (.ok v,
        ⟨pre ++ (toLEBytes 4 v.length ++ v.flatMap (fun x => toLEBytes 8 (toUnsigned 64 x)))
          ++ post,
         pre.length + (4 + (v.flatMap (fun x => toLEBytes 8 (toUnsigned 64 x))).length)⟩) :=
  vecRead_at BinaryReader.read_i64 BinaryReader.read_vec_i64 (fun _ => rfl)
    (fun x => toLEBytes 8 (toUnsigned 64 x)) wfI64
    (fun x p q hx => by simpa [toLEBytes_length] using read_i64_at p q x hx)
    pre post v hlen hwf

lemma read_vec_f32_at (pre post : List Nat) (v : List Nat)
    (hlen : v.length < 2 ^ 32) (hwf : ∀ x ∈ v, x < 2 ^ 32) :
    BinaryReader.read_vec_f32
        ⟨pre ++ (toLEBytes 4 v.length ++ v.flatMap (toLEBytes 4)) ++ post, pre.length⟩ =
      (.ok v, ⟨pre ++ (toLEBytes 4 v.length ++ v.flatMap (toLEBytes 4)) ++ post,
        pre.length + (4 + (v.flatMap (toLEBytes 4)).length)⟩) :=
  vecRead_at BinaryReader.read_f32 BinaryReader.read_vec_f32 (fun _ => rfl)
    (toLEBytes 4) (fun x => x < 2 ^ 32)
    (fun x p q hx => by simpa [toLEBytes_length] using read_f32_at p q x hx)
    pre post v hlen hwf

lemma read_vec_f64_at (pre post : List Nat) (v : List Nat)
    (hlen : v.length < 2 ^ 32) (hwf : ∀ x ∈ v, x < 2 ^ 64) :
    BinaryReader.read_vec_f64
        ⟨pre ++ (toLEBytes 4 v.length ++ v.flatMap (toLEBytes 8)) ++ post, pre.length⟩ =
      (.ok v, ⟨pre ++ (toLEBytes 4 v.length ++ v.flatMap (toLEBytes 8)) ++ post,
        pre.length + (4 + (v.flatMap (toLEBytes 8)).length)⟩) :=
  vecRead_at BinaryReader.read_f64 BinaryReader.read_vec_f64 (fun _ => rfl)
    (toLEBytes 8) (fun x => x < 2 ^ 64)
    (fun x p q hx => by simpa [toLEBytes_length] using read_f64_at p q x hx)
    pre post v hlen hwf

lemma read_vec_string_at (pre post : List Nat) (v : List (List Nat))
    (hlen : v.length < 2 ^ 32) (hwf : ∀ s ∈ v, wfStr s) :
    BinaryReader.read_vec_string
        ⟨pre ++ (toLEBytes 4 v.length ++ v.flatMap (fun s => toLEBytes 4 s.length ++ s))
          ++ post, pre.length⟩ =
      (.ok v,
        ⟨pre ++ (toLEBytes 4 v.length ++ v.flatMap (fun s => toLEBytes 4 s.length ++ s))
          ++ post,
         pre.length + (4 + (v.flatMap (fun s => toLEBytes 4 s.length ++ s)).length)⟩) :=
  vecRead_at BinaryReader.read_string BinaryReader.read_vec_string (fun _ => rfl)
    (fun s => toLEBytes 4 s.length ++ s) wfStr
    (fun s p q hs => by simpa [toLEBytes_length] using read_string_at p q s hs)
    pre post v hlen hwf

/-! ### Reading any well-formed value at the cursor -/

lemma readValue_at (v : Value) (hv : v.wf) (pre post : List Nat) :
    readValue v.kind ⟨pre ++ encValue v ++ post, pre.length⟩ =
      (.ok v, ⟨pre ++ encValue v ++ post, pre.length + (encValue v).length⟩) := by
  cases v with
  | vU8 x =>
    simp only [Value.kind, encValue, readValue]
    rw [read_u8_at]
    simp [mapRead]
  | vI8 x =>
    simp only [Value.kind, encValue, readValue]
    rw [read_i8_at pre post x hv]
    simp [mapRead]
  | vU16 x =>
    simp only [Value.kind, encValue, readValue]
    rw [read_u16_at pre post x hv]
    simp [mapRead, toLEBytes_length]
  | vI16 x =>
    simp only [Value.kind, encValue, readValue]
    rw [read_i16_at pre post x hv]
    simp [mapRead, toLEBytes_length]
  | vU32 x =>
    simp only [Value.kind, encValue, readValue]
    rw [read_u32_at pre post x hv]
    simp [mapRead, toLEBytes_length]
  | vI32 x =>
    simp only [Value.kind, encValue, readValue]
    rw [read_i32_at pre post x hv]
    simp [mapRead, toLEBytes_length]
  | vU64 x =>
    simp only [Value.kind, encValue, readValue]
    rw [read_u64_at pre post x hv]
    simp [mapRead, toLEBytes_length]
  | vI64 x =>
    simp only [Value.kind, encValue, readValue]
    rw [read_i64_at pre post x hv]
    simp [mapRead, toLEBytes_length]
  | vF32 x =>
    simp only [Value.kind, encValue, readValue]
    rw [read_f32_at pre post x hv]
    simp [mapRead, toLEBytes_length]
  | vF64 x =>
    simp only [Value.kind, encValue, readValue]
    rw [read_f64_at pre post x hv]
    simp [mapRead, toLEBytes_length]
  | vBool b =>
    simp only [Value.kind, encValue, readValue]
    rw [read_bool_at]
    simp
  | vString s =>
    simp only [Value.kind, encValue, readValue]
    rw [read_string_at pre post s hv]
    simp [mapRead, toLEBytes_length]
  | vVecU8 x =>
    simp only [Value.kind, encValue, readValue]
    rw [read_vec_u8_at pre post x hv.1]
    simp [mapRead, toLEBytes_length]
  | vVecU16 x =>
    simp only [Value.kind, encValue, readValue]
    rw [read_vec_u16_at pre post x hv.1 hv.2]
    simp [mapRead, toLEBytes_length]
  | vVecU32 x =>
    simp only [Value.kind, encValue, readValue]
    rw [read_vec_u32_at pre post x hv.1 hv.2]
    simp [mapRead, toLEBytes_length]
  | vVecU64 x =>
    simp only [Value.kind, encValue, readValue]
    rw [read_vec_u64_at pre post x hv.1 hv.2]
    simp [mapRead, toLEBytes_length]
  | vVecI8 x =>
    simp only [Value.kind, encValue, readValue]
    rw [read_vec_i8_at pre post x hv.1 hv.2]
    simp [mapRead, toLEBytes_length]
  | vVecI16 x =>
    simp only [Value.kind, encValue, readValue]
    rw [read_vec_i16_at pre post x hv.1 hv.2]
    simp [mapRead, toLEBytes_length]
  | vVecI32 x =>
    simp only [Value.kind, encValue, readValue]
    rw [read_vec_i32_at pre post x hv.1 hv.2]
    simp [mapRead, toLEBytes_length]
  | vVecI64 x =>
    simp only [Value.kind, encValue, readValue]
    rw [read_vec_i64_at pre post x hv.1 hv.2]
    simp [mapRead, toLEBytes_length]
  | vVecF32 x =>
    simp only [Value.kind, encValue, readValue]
    rw [read_vec_f32_at pre post x hv.1 hv.2]
    simp [mapRead, toLEBytes_length]
  | vVecF64 x =>
    simp only [Value.kind, encValue, readValue]
    rw [read_vec_f64_at pre post x hv.1 hv.2]
    simp [mapRead, toLEBytes_length]
  | vVecString x =>
    simp only [Value.kind, encValue, readValue]
    rw [read_vec_string_at pre post x hv.1 hv.2]
    simp [mapRead, toLEBytes_length]

lemma readValues_at :
    ∀ (vs : List Value) (pre post : List Nat), (∀ v ∈ vs, v.wf) →
      readValues (vs.map Value.kind) ⟨pre ++ vs.flatMap encValue ++ post, pre.length⟩ =
        (.ok vs, ⟨pre ++ vs.flatMap encValue ++ post,
          pre.length + (vs.flatMap encValue).length⟩) := by
  intro vs
  induction vs with
  | nil => intro pre post _; simp [readValues]
  | cons v vs ih =>
    intro pre post h
    have hv : v.wf := h v (by simp)
    have hvs : ∀ y ∈ vs, y.wf := fun y hy => h y (by simp [hy])
    have hb : pre ++ (v :: vs).flatMap encValue ++ post
        = pre ++ encValue v ++ (vs.flatMap encValue ++ post) := by
      simp [List.append_assoc]
    rw [hb]
    simp only [List.map_cons, readValues]
    rw [readValue_at v hv pre (vs.flatMap encValue ++ post)]
    have hI := ih (pre ++ encValue v) post hvs
    simp only [List.append_assoc, List.length_append] at hI
    simp [hI, Nat.add_assoc]

/-! ### Error paths and cursor discipline -/

lemma ensureRead_err {α : Type} (w : Nat) (f : BinaryReader → α)
    (read : BinaryReader → Except String α × BinaryReader)
    (hread : ∀ r, read r =
      match r.ensure_available w with
      | .error e => (.error e, r)
      | .ok _ => (.ok (f r), ⟨r.data, r.cursor + w⟩)) :
    ∀ (r : BinaryReader) (e : String), (read r).1 = .error e → (read r).2 = r := by
  intro r e h
  rw [hread] at h ⊢
  unfold BinaryReader.ensure_available at h ⊢
  by_cases hc : r.cursor + w > r.data.length
  · simp [hc]
  · simp [hc] at h

lemma ensureRead_okState {α : Type} (w : Nat) (f : BinaryReader → α)
    (read : BinaryReader → Except String α × BinaryReader)
    (hread : ∀ r, read r =
      match r.ensure_available w with
      | .error e => (.error e, r)
      | .ok _ => (.ok (f r), ⟨r.data, r.cursor + w⟩)) :
    ∀ (r : BinaryReader) (v : α), (read r).1 = .ok v →
      (read r).2 = ⟨r.data, r.cursor + w⟩ := by
  intro r v h
  rw [hread] at h ⊢
  unfold BinaryReader.ensure_available at h ⊢
  by_cases hc : r.cursor + w > r.data.length
  · simp [hc] at h
  · simp [hc]

lemma ensureRead_okOf {α : Type} (w : Nat) (f : BinaryReader → α)
    (read : BinaryReader → Except String α × BinaryReader)
    (hread : ∀ r, read r =
      match r.ensure_available w with
      | .error e => (.error e, r)
      | .ok _ => (.ok (f r), ⟨r.data, r.cursor + w⟩)) :
    ∀ r : BinaryReader, r.cursor + w ≤ r.data.length →
      read r = (.ok (f r), ⟨r.data, r.cursor + w⟩) := by
  intro r hle
  rw [hread]
  unfold BinaryReader.ensure_available
  rw [if_neg (by omega)]

lemma ensureRead_errOf {α : Type} (w : Nat) (f : BinaryReader → α)
    (read : BinaryReader → Except String α × BinaryReader)
    (hread : ∀ r, read r =
      match r.ensure_available w with
      | .error e => (.error e, r)
      | .ok _ => (.ok (f r), ⟨r.data, r.cursor + w⟩)) :
    ∀ r : BinaryReader, r.data.length < r.cursor + w →
      read r = (.error "Unexpected end of data", r) := by
  intro r hlt
  rw [hread]
  unfold BinaryReader.ensure_available
  rw [if_pos (by omega)]

lemma read_i16_err (r : BinaryReader) (e : String) (h : (r.read_i16).1 = .error e) :
    (r.read_i16).2 = r := by
  have h16 := ensureRead_err 2 (fun r => fromLEBytes ((r.data.drop r.cursor).take 2))
    BinaryReader.read_u16 (fun _ => rfl) r
  unfold BinaryReader.read_i16 at h ⊢
  rcases hu : r.read_u16 with ⟨f, r1⟩
  rw [hu] at h
  cases f with
  | error e2 =>
    have h2 : (r.read_u16).2 = r := h16 e2 (by rw [hu])
    rw [hu] at h2
    exact h2
  | ok v => simp at h

lemma read_i32_err (r : BinaryReader) (e : String) (h : (r.read_i32).1 = .error e) :
    (r.read_i32).2 = r := by
  have h32 := ensureRead_err 4 (fun r => fromLEBytes ((r.data.drop r.cursor).take 4))
    BinaryReader.read_u32 (fun _ => rfl) r
  unfold BinaryReader.read_i32 at h ⊢
  rcases hu : r.read_u32 with ⟨f, r1⟩
  rw [hu] at h
  cases f with
  | error e2 =>
    have h2 : (r.read_u32).2 = r := h32 e2 (by rw [hu])
    rw [hu] at h2
    exact h2
  | ok v => simp at h

lemma read_i64_err (r : BinaryReader) (e : String) (h : (r.read_i64).1 = .error e) :
    (r.read_i64).2 = r := by
  have h64 := ensureRead_err 8 (fun r => fromLEBytes ((r.data.drop r.cursor).take 8))
    BinaryReader.read_u64 (fun _ => rfl) r
  unfold BinaryReader.read_i64 at h ⊢
  rcases hu : r.read_u64 with ⟨f, r1⟩
  rw [hu] at h
  cases f with
  | error e2 =>
    have h2 : (r.read_u64).2 = r := h64 e2 (by rw [hu])
    rw [hu] at h2
    exact h2
  | ok v => simp at h

lemma read_bool_err (r : BinaryReader) (e : String) (h : (r.read_bool).1 = .err e) :
    (r.read_bool).2 = r := by
  have h8 := ensureRead_err 1 (fun r => r.data.getD r.cursor 0)
    BinaryReader.read_u8 (fun _ => rfl) r
  unfold BinaryReader.read_bool at h ⊢
  rcases hu : r.read_u8 with ⟨f, r1⟩
  rw [hu] at h
  cases f with
  | error e2 =>
    have h2 : (r.read_u8).2 = r := h8 e2 (by rw [hu])
    rw [hu] at h2
    exact h2
  | ok v =>
    cases v with
    | zero => simp at h
    | succ v1 =>
      cases v1 with
      | zero => simp at h
      | succ v2 => simp at h

lemma read_string_err_cursor (r : BinaryReader)
    (h : (r.read_string).1 = .error "Unexpected end of data") :
    (r.read_string).2.cursor = r.cursor ∨ (r.read_string).2.cursor = r.cursor + 4 := by
  have herr := ensureRead_err 4 (fun r => fromLEBytes ((r.data.drop r.cursor).take 4))
    BinaryReader.read_u32 (fun _ => rfl) r
  have hoks := ensureRead_okState 4 (fun r => fromLEBytes ((r.data.drop r.cursor).take 4))
    BinaryReader.read_u32 (fun _ => rfl) r
  unfold BinaryReader.read_string at h ⊢
  rcases hu : r.read_u32 with ⟨f, r1⟩
  rw [hu] at h
  cases f with
  | error e2 =>
    left
    have h2 : (r.read_u32).2 = r := herr e2 (by rw [hu])
    rw [hu] at h2
    have h3 : r1 = r := h2
    simp [h3]
  | ok n =>
    right
    have h2 : r1 = ⟨r.data, r.cursor + 4⟩ := by
      have hh := hoks n (by rw [hu])
      rw [hu] at hh
      exact hh
    rw [h2] at h ⊢
    cases hens : BinaryReader.ensure_available ⟨r.data, r.cursor + 4⟩ n with
    | error e2 => simp [hens]
    | ok u =>
      by_cases hv : isValidUtf8 ((r.data.drop (r.cursor + 4)).take n) = true
      · simp [hens, hv] at h
      · simp [hens, hv] at h

lemma readN_truncated {α : Type} (s : Nat) (hs : 0 < s)
    (read : BinaryReader → Except String α × BinaryReader)
    (hok : ∀ r : BinaryReader, r.cursor + s ≤ r.data.length →
      ∃ v, read r = (.ok v, ⟨r.data, r.cursor + s⟩))
    (herr : ∀ r : BinaryReader, r.data.length < r.cursor + s →
      read r = (.error "Unexpected end of data", r)) :
    ∀ (n : Nat) (r : BinaryReader), r.cursor ≤ r.data.length →
      r.data.length < r.cursor + n * s →
      readN read n r = (.error "Unexpected end of data",
        ⟨r.data, r.cursor + s * ((r.data.length - r.cursor) / s)⟩) := by
  intro n
  induction n with
  | zero =>
    intro r hc hlt
    exact absurd hlt (by omega)
  | succ k ih =>
    intro r hc hlt
    have hmul : (k + 1) * s = k * s + s := Nat.succ_mul k s
    rw [hmul] at hlt
    by_cases hfit : r.cursor + s ≤ r.data.length
    · obtain ⟨v, hv⟩ := hok r hfit
      simp only [readN]
      rw [hv]
      have hrec := ih ⟨r.data, r.cursor + s⟩ (by simpa using hfit) (by simp; omega)
      have hsub : r.data.length - r.cursor - s = r.data.length - (r.cursor + s) := by
        omega
      have hdiv : (r.data.length - r.cursor) / s
          = (r.data.length - (r.cursor + s)) / s + 1 := by
        rw [Nat.div_eq_sub_div hs (by omega), hsub]
      rw [hdiv, Nat.mul_succ]
      simp [hrec]
      omega
    · have hbad := herr r (by omega)
      simp only [readN]
      rw [hbad]
      have hdiv0 : (r.data.length - r.cursor) / s = 0 := Nat.div_eq_of_lt (by omega)
      simp [hdiv0]

lemma readN_ok_then_err {α : Type} (read : BinaryReader → Except String α × BinaryReader)
    (enc : α → List Nat) (wf : α → Prop)
    (hread : ∀ (x : α) (pre post : List Nat), wf x →
      read ⟨pre ++ enc x ++ post, pre.length⟩ =
        (.ok x, ⟨pre ++ enc x ++ post, pre.length + (enc x).length⟩)) :
    ∀ (xs : List α) (pre post : List Nat), (∀ x ∈ xs, wf x) →
      ∀ (e : String) (rf : BinaryReader),
        read ⟨pre ++ xs.flatMap enc ++ post, (pre ++ xs.flatMap enc).length⟩
          = (.error e, rf) →
        ∀ n, xs.length < n →
          readN read n ⟨pre ++ xs.flatMap enc ++ post, pre.length⟩ = (.error e, rf) := by
  intro xs
  induction xs with
  | nil =>
    intro pre post _ e rf hfail n hn
    obtain ⟨m, rfl⟩ : ∃ m, n = m + 1 := ⟨n - 1, by omega⟩
    simp only [List.flatMap_nil, List.append_nil] at hfail ⊢
    simp only [readN]
    rw [hfail]
  | cons x xs ih =>
    intro pre post h e rf hfail n hn
    obtain ⟨m, rfl⟩ : ∃ m, n = m + 1 := ⟨n - 1, by omega⟩
    have hx : wf x := h x (by simp)
    have hxs : ∀ y ∈ xs, wf y := fun y hy => h y (by simp [hy])
    have hfail2 : read ⟨(pre ++ enc x) ++ xs.flatMap enc ++ post,
        ((pre ++ enc x) ++ xs.flatMap enc).length⟩ = (.error e, rf) := by
      simpa [List.append_assoc] using hfail
    have hI := ih (pre ++ enc x) post hxs e rf hfail2 m (by simpa using hn)
    have hb : pre ++ (x :: xs).flatMap enc ++ post
        = pre ++ enc x ++ (xs.flatMap enc ++ post) := by
      simp [List.append_assoc]
    rw [hb]
    simp only [readN]
    rw [hread x pre (xs.flatMap enc ++ post) hx]
    simp only [List.append_assoc, List.length_append] at hI
    simp [hI]

lemma read_vec_u8_err_cursor (r : BinaryReader) (e : String)
    (h : (r.read_vec_u8).1 = .error e) :
    (r.read_vec_u8).2.cursor = r.cursor ∨ (r.read_vec_u8).2.cursor = r.cursor + 4 := by
  have herr := ensureRead_err 4 (fun r => fromLEBytes ((r.data.drop r.cursor).take 4))
    BinaryReader.read_u32 (fun _ => rfl) r
  have hoks := ensureRead_okState 4 (fun r => fromLEBytes ((r.data.drop r.cursor).take 4))
    BinaryReader.read_u32 (fun _ => rfl) r
  unfold BinaryReader.read_vec_u8 at h ⊢
  rcases hu : r.read_u32 with ⟨f, r1⟩
  rw [hu] at h
  cases f with
  | error e2 =>
    left
    have h2 : (r.read_u32).2 = r := herr e2 (by rw [hu])
    rw [hu] at h2
    have h3 : r1 = r := h2
    simp [h3]
  | ok n =>
    right
    have h2 : r1 = ⟨r.data, r.cursor + 4⟩ := by
      have hh := hoks n (by rw [hu])
      rw [hu] at hh
      exact hh
    rw [h2] at h ⊢
    cases hens : BinaryReader.ensure_available ⟨r.data, r.cursor + 4⟩ n with
    | error e2 => simp [hens]
    | ok u => simp [hens] at h

lemma read_i16_okOf (r : BinaryReader) (hle : r.cursor + 2 ≤ r.data.length) :
    ∃ v, r.read_i16 = (.ok v, ⟨r.data, r.cursor + 2⟩) := by
  have h := ensureRead_okOf 2 (fun r => fromLEBytes ((r.data.drop r.cursor).take 2))
    BinaryReader.read_u16 (fun _ => rfl) r hle
  exact ⟨_, by unfold BinaryReader.read_i16; rw [h]⟩

lemma read_i16_errOf (r : BinaryReader) (hlt : r.data.length < r.cursor + 2) :
    r.read_i16 = (.error "Unexpected end of data", r) := by
  have h := ensureRead_errOf 2 (fun r => fromLEBytes ((r.data.drop r.cursor).take 2))
    BinaryReader.read_u16 (fun _ => rfl) r hlt
  unfold BinaryReader.read_i16
  rw [h]

lemma read_i32_okOf (r : BinaryReader) (hle : r.cursor + 4 ≤ r.data.length) :
    ∃ v, r.read_i32 = (.ok v, ⟨r.data, r.cursor + 4⟩) := by
  have h := ensureRead_okOf 4 (fun r => fromLEBytes ((r.data.drop r.cursor).take 4))
    BinaryReader.read_u32 (fun _ => rfl) r hle
  exact ⟨_, by unfold BinaryReader.read_i32; rw [h]⟩

lemma read_i32_errOf (r : BinaryReader) (hlt : r.data.length < r.cursor + 4) :
    r.read_i32 = (.error "Unexpected end of data", r) := by
  have h := ensureRead_errOf 4 (fun r => fromLEBytes ((r.data.drop r.cursor).take 4))
    BinaryReader.read_u32 (fun _ => rfl) r hlt
  unfold BinaryReader.read_i32
  rw [h]

lemma read_i64_okOf (r : BinaryReader) (hle : r.cursor + 8 ≤ r.data.length) :
    ∃ v, r.read_i64 = (.ok v, ⟨r.data, r.cursor + 8⟩) := by
  have h := ensureRead_okOf 8 (fun r => fromLEBytes ((r.data.drop r.cursor).take 8))
    BinaryReader.read_u64 (fun _ => rfl) r hle
  exact ⟨_, by unfold BinaryReader.read_i64; rw [h]⟩

lemma read_i64_errOf (r : BinaryReader) (hlt : r.data.length < r.cursor + 8) :
    r.read_i64 = (.error "Unexpected end of data", r) := by
  have h := ensureRead_errOf 8 (fun r => fromLEBytes ((r.data.drop r.cursor).take 8))
    BinaryReader.read_u64 (fun _ => rfl) r hlt
  unfold BinaryReader.read_i64
  rw [h]

lemma read_vec_u8_upfront (pre rest : List Nat) (n : Nat) (hn : n < 2 ^ 32)
    (hshort : rest.length < n) :
    BinaryReader.read_vec_u8 ⟨pre ++ toLEBytes 4 n ++ rest, pre.length⟩ =
      (.error "Unexpected end of data",
        ⟨pre ++ toLEBytes 4 n ++ rest, pre.length + 4⟩) := by
  unfold BinaryReader.read_vec_u8
  rw [read_u32_at pre rest n hn]
  have hbad : BinaryReader.ensure_available
      ⟨pre ++ (toLEBytes 4 n ++ rest), pre.length + 4⟩ n
      = .error "Unexpected end of data" := by
    unfold BinaryReader.ensure_available
    rw [if_pos (by simp only [List.length_append, toLEBytes_length]; omega)]
  simp [hbad]

lemma vec_truncated_generic {α : Type} (s : Nat) (hs : 0 < s)
    (read : BinaryReader → Except String α × BinaryReader)
    (vecRead : BinaryReader → Except String (List α) × BinaryReader)
    (hvec : ∀ r, vecRead r = match r.read_u32 with
      | (.error e, r1) => (.error e, r1)
      | (.ok n, r1) => readN read n r1)
    (hok : ∀ r : BinaryReader, r.cursor + s ≤ r.data.length →
      ∃ v, read r = (.ok v, ⟨r.data, r.cursor + s⟩))
    (herr : ∀ r : BinaryReader, r.data.length < r.cursor + s →
      read r = (.error "Unexpected end of data", r))
    (pre rest : List Nat) (n : Nat) (hn : n < 2 ^ 32) (hshort : rest.length < n * s) :
    vecRead ⟨pre ++ toLEBytes 4 n ++ rest, pre.length⟩ =
      (.error "Unexpected end of data",
        ⟨pre ++ toLEBytes 4 n ++ rest, pre.length + 4 + s * (rest.length / s)⟩) := by
  rw [hvec, read_u32_at pre rest n hn]
  have hlen : (pre ++ toLEBytes 4 n ++ rest).length = pre.length + 4 + rest.length := by
    simp only [List.length_append, toLEBytes_length]
  have ht := readN_truncated s hs read hok herr n
    ⟨pre ++ toLEBytes 4 n ++ rest, pre.length + 4⟩
    (by simp only []; rw [hlen]; omega)
    (by simp only []; rw [hlen]; have := Nat.mul_comm n s; omega)
  simp only [] at ht
  rw [hlen] at ht
  have hsub : pre.length + 4 + rest.length - (pre.length + 4) = rest.length := by omega
  rw [hsub] at ht
  simp only [List.append_assoc] at ht
  simp [ht, Nat.add_assoc]

lemma read_vec_i8_truncated (pre rest : List Nat) (n : Nat) (hn : n < 2 ^ 32)
    (hshort : rest.length < n * 1) :
    BinaryReader.read_vec_i8 ⟨pre ++ toLEBytes 4 n ++ rest, pre.length⟩ =
      (.error "Unexpected end of data",
        ⟨pre ++ toLEBytes 4 n ++ rest, pre.length + 4 + 1 * (rest.length / 1)⟩) :=
  vec_truncated_generic 1 (by norm_num) BinaryReader.read_i8 BinaryReader.read_vec_i8
    (fun _ => rfl)
    (fun r hr => ⟨_, ensureRead_okOf 1 (fun r => toSigned 8 (r.data.getD r.cursor 0))
      BinaryReader.read_i8 (fun _ => rfl) r hr⟩)
    (ensureRead_errOf 1 (fun r => toSigned 8 (r.data.getD r.cursor 0))
      BinaryReader.read_i8 (fun _ => rfl))
    pre rest n hn hshort

lemma read_vec_u16_truncated (pre rest : List Nat) (n : Nat) (hn : n < 2 ^ 32)
    (hshort : rest.length < n * 2) :
    BinaryReader.read_vec_u16 ⟨pre ++ toLEBytes 4 n ++ rest, pre.length⟩ =
      (.error "Unexpected end of data",
        ⟨pre ++ toLEBytes 4 n ++ rest, pre.length + 4 + 2 * (rest.length / 2)⟩) :=
  vec_truncated_generic 2 (by norm_num) BinaryReader.read_u16 BinaryReader.read_vec_u16
    (fun _ => rfl)
    (fun r hr => ⟨_, ensureRead_okOf 2 (fun r => fromLEBytes ((r.data.drop r.cursor).take 2))
      BinaryReader.read_u16 (fun _ => rfl) r hr⟩)
    (ensureRead_errOf 2 (fun r => fromLEBytes ((r.data.drop r.cursor).take 2))
      BinaryReader.read_u16 (fun _ => rfl))
    pre rest n hn hshort

lemma read_vec_i16_truncated (pre rest : List Nat) (n : Nat) (hn : n < 2 ^ 32)
    (hshort : rest.length < n * 2) :
    BinaryReader.read_vec_i16 ⟨pre ++ toLEBytes 4 n ++ rest, pre.length⟩ =
      (.error "Unexpected end of data",
        ⟨pre ++ toLEBytes 4 n ++ rest, pre.length + 4 + 2 * (rest.length / 2)⟩) :=
  vec_truncated_generic 2 (by norm_num) BinaryReader.read_i16 BinaryReader.read_vec_i16
    (fun _ => rfl) read_i16_okOf read_i16_errOf pre rest n hn hshort

lemma read_vec_u32_truncated (pre rest : List Nat) (n : Nat) (hn : n < 2 ^ 32)
    (hshort : rest.length < n * 4) :
    BinaryReader.read_vec_u32 ⟨pre ++ toLEBytes 4 n ++ rest, pre.length⟩ =
      (.error "Unexpected end of data",
        ⟨pre ++ toLEBytes 4 n ++ rest, pre.length + 4 + 4 * (rest.length / 4)⟩) :=
  vec_truncated_generic 4 (by norm_num) BinaryReader.read_u32 BinaryReader.read_vec_u32
    (fun _ => rfl)
    (fun r hr => ⟨_, ensureRead_okOf 4 (fun r => fromLEBytes ((r.data.drop r.cursor).take 4))
      BinaryReader.read_u32 (fun _ => rfl) r hr⟩)
    (ensureRead_errOf 4 (fun r => fromLEBytes ((r.data.drop r.cursor).take 4))
      BinaryReader.read_u32 (fun _ => rfl))
    pre rest n hn hshort

lemma read_vec_i32_truncated (pre rest : List Nat) (n : Nat) (hn : n < 2 ^ 32)
    (hshort : rest.length < n * 4) :
    BinaryReader.read_vec_i32 ⟨pre ++ toLEBytes 4 n ++ rest, pre.length⟩ =
      (.error "Unexpected end of data",
        ⟨pre ++ toLEBytes 4 n ++ rest, pre.length + 4 + 4 * (rest.length / 4)⟩) :=
  vec_truncated_generic 4 (by norm_num) BinaryReader.read_i32 BinaryReader.read_vec_i32
    (fun _ => rfl) read_i32_okOf read_i32_errOf pre rest n hn hshort

lemma read_vec_u64_truncated (pre rest : List Nat) (n : Nat) (hn : n < 2 ^ 32)
    (hshort : rest.length < n * 8) :
    BinaryReader.read_vec_u64 ⟨pre ++ toLEBytes 4 n ++ rest, pre.length⟩ =
      (.error "Unexpected end of data",
        ⟨pre ++ toLEBytes 4 n ++ rest, pre.length + 4 + 8 * (rest.length / 8)⟩) :=
  vec_truncated_generic 8 (by norm_num) BinaryReader.read_u64 BinaryReader.read_vec_u64
    (fun _ => rfl)
    (fun r hr => ⟨_, ensureRead_okOf 8 (fun r => fromLEBytes ((r.data.drop r.cursor).take 8))
      BinaryReader.read_u64 (fun _ => rfl) r hr⟩)
    (ensureRead_errOf 8 (fun r => fromLEBytes ((r.data.drop r.cursor).take 8))
      BinaryReader.read_u64 (fun _ => rfl))
    pre rest n hn hshort

lemma read_vec_i64_truncated (pre rest : List Nat) (n : Nat) (hn : n < 2 ^ 32)
    (hshort : rest.length < n * 8) :
    BinaryReader.read_vec_i64 ⟨pre ++ toLEBytes 4 n ++ rest, pre.length⟩ =
      (.error "Unexpected end of data",
        ⟨pre ++ toLEBytes 4 n ++ rest, pre.length + 4 + 8 * (rest.length / 8)⟩) :=
  vec_truncated_generic 8 (by norm_num) BinaryReader.read_i64 BinaryReader.read_vec_i64
    (fun _ => rfl) read_i64_okOf read_i64_errOf pre rest n hn hshort

lemma read_vec_f32_truncated (pre rest : List Nat) (n : Nat) (hn : n < 2 ^ 32)
    (hshort : rest.length < n * 4) :
    BinaryReader.read_vec_f32 ⟨pre ++ toLEBytes 4 n ++ rest, pre.length⟩ =
      (.error "Unexpected end of data",
        ⟨pre ++ toLEBytes 4 n ++ rest, pre.length + 4 + 4 * (rest.length / 4)⟩) :=
  vec_truncated_generic 4 (by norm_num) BinaryReader.read_f32 BinaryReader.read_vec_f32
    (fun _ => rfl)
    (fun r hr => ⟨_, ensureRead_okOf 4 (fun r => fromLEBytes ((r.data.drop r.cursor).take 4))
      BinaryReader.read_f32 (fun _ => rfl) r hr⟩)
    (ensureRead_errOf 4 (fun r => fromLEBytes ((r.data.drop r.cursor).take 4))
      BinaryReader.read_f32 (fun _ => rfl))
    pre rest n hn hshort

lemma read_vec_f64_truncated (pre rest : List Nat) (n : Nat) (hn : n < 2 ^ 32)
    (hshort : rest.length < n * 8) :
    BinaryReader.read_vec_f64 ⟨pre ++ toLEBytes 4 n ++ rest, pre.length⟩ =
      (.error "Unexpected end of data",
        ⟨pre ++ toLEBytes 4 n ++ rest, pre.length + 4 + 8 * (rest.length / 8)⟩) :=
  vec_truncated_generic 8 (by norm_num) BinaryReader.read_f64 BinaryReader.read_vec_f64
    (fun _ => rfl)
    (fun r hr => ⟨_, ensureRead_okOf 8 (fun r => fromLEBytes ((r.data.drop r.cursor).take 8))
      BinaryReader.read_f64 (fun _ => rfl) r hr⟩)
    (ensureRead_errOf 8 (fun r => fromLEBytes ((r.data.drop r.cursor).take 8))
      BinaryReader.read_f64 (fun _ => rfl))
    pre rest n hn hshort

lemma read_vec_string_first_fail (pre post : List Nat) (ss : List (List Nat)) (n : Nat)
    (e : String) (rf : BinaryReader) (hwf : ∀ s ∈ ss, wfStr s)
    (hk : ss.length < n) (hn : n < 2 ^ 32)
    (hfail : BinaryReader.read_string
        ⟨(pre ++ toLEBytes 4 n) ++ ss.flatMap (fun s => toLEBytes 4 s.length ++ s) ++ post,
          ((pre ++ toLEBytes 4 n) ++ ss.flatMap (fun s => toLEBytes 4 s.length ++ s)).length⟩
        = (.error e, rf)) :
    BinaryReader.read_vec_string
        ⟨(pre ++ toLEBytes 4 n) ++ ss.flatMap (fun s => toLEBytes 4 s.length ++ s) ++ post,
          pre.length⟩ = (.error e, rf) := by
  unfold BinaryReader.read_vec_string
  have hb : (pre ++ toLEBytes 4 n) ++ ss.flatMap (fun s => toLEBytes 4 s.length ++ s) ++ post
      = pre ++ toLEBytes 4 n ++ (ss.flatMap (fun s => toLEBytes 4 s.length ++ s) ++ post) := by
    simp [List.append_assoc]
  rw [hb]
  rw [read_u32_at pre (ss.flatMap (fun s => toLEBytes 4 s.length ++ s) ++ post) n hn]
  have hkN := readN_ok_then_err BinaryReader.read_string
    (fun s => toLEBytes 4 s.length ++ s) wfStr
    (fun s p q hs => by simpa [toLEBytes_length] using read_string_at p q s hs)
    ss (pre ++ toLEBytes 4 n) post hwf e rf hfail n hk
  have h4 : (pre ++ toLEBytes 4 n).length = pre.length + 4 := by
    simp [toLEBytes_length]
  rw [h4] at hkN
  simp only [List.append_assoc] at hkN
  simp [hkN]

/-! ### Cursor invariants -/

lemma ensure_ok_bound (r : BinaryReader) (n : Nat)
    (h : r.ensure_available n = .ok ()) : r.cursor + n ≤ r.data.length := by
  unfold BinaryReader.ensure_available at h
  by_cases hc : r.cursor + n > r.data.length
  · rw [if_pos hc] at h
    simp at h
  · omega

lemma preserves_ensureRead {α : Type} (w : Nat) (f : BinaryReader → α)
    (read : BinaryReader → Except String α × BinaryReader)
    (hread : ∀ r, read r =
      match r.ensure_available w with
      | .error e => (.error e, r)
      | .ok _ => (.ok (f r), ⟨r.data, r.cursor + w⟩)) :
    PreservesCursor read := by
  intro r hc
  rw [hread]
  unfold BinaryReader.ensure_available
  by_cases hcond : r.cursor + w > r.data.length
  · rw [if_pos hcond]
    exact ⟨rfl, Nat.le_refl _, hc⟩
  · rw [if_neg hcond]
    refine ⟨rfl, ?_, ?_⟩
    · show r.cursor ≤ r.cursor + w
      omega
    · show r.cursor + w ≤ r.data.length
      omega

lemma advances_ensureRead {α : Type} (w : Nat) (f : BinaryReader → α)
    (read : BinaryReader → Except String α × BinaryReader)
    (hread : ∀ r, read r =
      match r.ensure_available w with
      | .error e => (.error e, r)
      | .ok _ => (.ok (f r), ⟨r.data, r.cursor + w⟩)) :
    AdvancesBy read (fun _ => w) := by
  intro r v r1 h
  rw [hread] at h
  unfold BinaryReader.ensure_available at h
  by_cases hcond : r.cursor + w > r.data.length
  · rw [if_pos hcond] at h
    simp at h
  · rw [if_neg hcond] at h
    simp at h
    obtain ⟨h1, h2⟩ := h
    subst h2
    exact ⟨rfl, rfl⟩

lemma preserves_read_i16 : PreservesCursor BinaryReader.read_i16 := by
  have hp := preserves_ensureRead 2 (fun r => fromLEBytes ((r.data.drop r.cursor).take 2))
    BinaryReader.read_u16 (fun _ => rfl)
  intro r hc
  have h1 := hp r hc
  unfold BinaryReader.read_i16
  rcases hu : r.read_u16 with ⟨f, r1⟩
  rw [hu] at h1
  cases f <;> exact h1

lemma preserves_read_i32 : PreservesCursor BinaryReader.read_i32 := by
  have hp := preserves_ensureRead 4 (fun r => fromLEBytes ((r.data.drop r.cursor).take 4))
    BinaryReader.read_u32 (fun _ => rfl)
  intro r hc
  have h1 := hp r hc
  unfold BinaryReader.read_i32
  rcases hu : r.read_u32 with ⟨f, r1⟩
  rw [hu] at h1
  cases f <;> exact h1

lemma preserves_read_i64 : PreservesCursor BinaryReader.read_i64 := by
  have hp := preserves_ensureRead 8 (fun r => fromLEBytes ((r.data.drop r.cursor).take 8))
    BinaryReader.read_u64 (fun _ => rfl)
  intro r hc
  have h1 := hp r hc
  unfold BinaryReader.read_i64
  rcases hu : r.read_u64 with ⟨f, r1⟩
  rw [hu] at h1
  cases f <;> exact h1

lemma advances_read_i16 : AdvancesBy BinaryReader.read_i16 (fun _ => 2) := by
  have ha := advances_ensureRead 2 (fun r => fromLEBytes ((r.data.drop r.cursor).take 2))
    BinaryReader.read_u16 (fun _ => rfl)
  intro r v r1 h
  unfold BinaryReader.read_i16 at h
  rcases hu : r.read_u16 with ⟨f, r2⟩
  rw [hu] at h
  cases f with
  | error e => simp at h
  | ok u =>
    simp at h
    obtain ⟨h1, h2⟩ := h
    subst h2
    exact ha r u r2 (by rw [hu])

lemma advances_read_i32 : AdvancesBy BinaryReader.read_i32 (fun _ => 4) := by
  have ha := advances_ensureRead 4 (fun r => fromLEBytes ((r.data.drop r.cursor).take 4))
    BinaryReader.read_u32 (fun _ => rfl)
  intro r v r1 h
  unfold BinaryReader.read_i32 at h
  rcases hu : r.read_u32 with ⟨f, r2⟩
  rw [hu] at h
  cases f with
  | error e => simp at h
  | ok u =>
    simp at h
    obtain ⟨h1, h2⟩ := h
    subst h2
    exact ha r u r2 (by rw [hu])

lemma advances_read_i64 : AdvancesBy BinaryReader.read_i64 (fun _ => 8) := by
  have ha := advances_ensureRead 8 (fun r => fromLEBytes ((r.data.drop r.cursor).take 8))
    BinaryReader.read_u64 (fun _ => rfl)
  intro r v r1 h
  unfold BinaryReader.read_i64 at h
  rcases hu : r.read_u64 with ⟨f, r2⟩
  rw [hu] at h
  cases f with
  | error e => simp at h
  | ok u =>
    simp at h
    obtain ⟨h1, h2⟩ := h
    subst h2
    exact ha r u r2 (by rw [hu])

lemma read_bool_state (r : BinaryReader) (hc : r.cursor ≤ r.data.length) :
    (r.read_bool).2.data = r.data ∧ r.cursor ≤ (r.read_bool).2.cursor ∧
      (r.read_bool).2.cursor ≤ r.data.length := by
  have hp := preserves_ensureRead 1 (fun r => r.data.getD r.cursor 0)
    BinaryReader.read_u8 (fun _ => rfl) r hc
  unfold BinaryReader.read_bool
  rcases hu : r.read_u8 with ⟨f, r1⟩
  rw [hu] at hp
  cases f with
  | error e => exact hp
  | ok v =>
    cases v with
    | zero => exact hp
    | succ v1 =>
      cases v1 with
      | zero => exact hp
      | succ v2 => exact hp

lemma read_bool_advances (r : BinaryReader) (b : Bool) (r1 : BinaryReader)
    (h : r.read_bool = (.ok b, r1)) : r1.data = r.data ∧ r1.cursor = r.cursor + 1 := by
  have ha := advances_ensureRead 1 (fun r => r.data.getD r.cursor 0)
    BinaryReader.read_u8 (fun _ => rfl)
  unfold BinaryReader.read_bool at h
  rcases hu : r.read_u8 with ⟨f, r2⟩
  rw [hu] at h
  cases f with
  | error e => simp at h
  | ok v =>
    cases v with
    | zero =>
      simp at h
      obtain ⟨h1, h2⟩ := h
      subst h2
      exact ha r 0 r2 (by rw [hu])
    | succ v1 =>
      cases v1 with
      | zero =>
        simp at h
        obtain ⟨h1, h2⟩ := h
        subst h2
        exact ha r 1 r2 (by rw [hu])
      | succ v2 => simp at h

lemma preserves_readN {α : Type} (read : BinaryReader → Except String α × BinaryReader)
    (h : PreservesCursor read) : ∀ n, PreservesCursor (readN read n) := by
  intro n
  induction n with
  | zero =>
    intro r hc
    exact ⟨rfl, Nat.le_refl _, hc⟩
  | succ k ih =>
    intro r hc
    simp only [readN]
    have h1 := h r hc
    rcases hr : read r with ⟨f, r1⟩
    rw [hr] at h1
    simp at h1
    obtain ⟨hd, hle1, hle2⟩ := h1
    cases f with
    | error e => exact ⟨hd, hle1, hle2⟩
    | ok v =>
      have hlen : r1.data.length = r.data.length := by rw [hd]
      have h2 := ih r1 (by omega)
      rcases hrN : readN read k r1 with ⟨g, r2⟩
      rw [hrN] at h2
      simp at h2
      obtain ⟨hd2, hle3, hle4⟩ := h2
      have hd3 : r2.data = r.data := by rw [hd2, hd]
      cases g with
      | error e =>
        simp [hrN]
        exact ⟨hd3, by omega, by omega⟩
      | ok vs =>
        simp [hrN]
        exact ⟨hd3, by omega, by omega⟩

lemma advances_readN {α : Type} (read : BinaryReader → Except String α × BinaryReader)
    (size : α → Nat) (h : AdvancesBy read size) :
    ∀ (n : Nat) (r : BinaryReader) (vs : List α) (r1 : BinaryReader),
      readN read n r = (.ok vs, r1) →
      r1.data = r.data ∧ r1.cursor = r.cursor + (vs.map size).sum := by
  intro n
  induction n with
  | zero =>
    intro r vs r1 hEq
    simp [readN] at hEq
    obtain ⟨h1, h2⟩ := hEq
    subst h1
    subst h2
    simp
  | succ k ih =>
    intro r vs r1 hEq
    simp only [readN] at hEq
    rcases hr : read r with ⟨f, r2⟩
    rw [hr] at hEq
    cases f with
    | error e => simp at hEq
    | ok v =>
      rcases hrN : readN read k r2 with ⟨g, r3⟩
      cases g with
      | error e => simp [hrN] at hEq
      | ok ws =>
        simp [hrN] at hEq
        obtain ⟨hvs, hr1⟩ := hEq
        subst hr1
        have hv := h r v r2 hr
        have hw := ih r2 ws r3 hrN
        refine ⟨by rw [hw.1, hv.1], ?_⟩
        rw [← hvs]
        simp only [List.map_cons, List.sum_cons]
        rw [hw.2, hv.2]
        omega

lemma preserves_vec {α : Type}
    (read : BinaryReader → Except String α × BinaryReader)
    (vecRead : BinaryReader → Except String (List α) × BinaryReader)
    (hvec : ∀ r, vecRead r = match r.read_u32 with
      | (.error e, r1) => (.error e, r1)
      | (.ok n, r1) => readN read n r1)
    (h : PreservesCursor read) : PreservesCursor vecRead := by
  intro r hc
  rw [hvec]
  have h32 := preserves_ensureRead 4 (fun r => fromLEBytes ((r.data.drop r.cursor).take 4))
    BinaryReader.read_u32 (fun _ => rfl) r hc
  rcases hu : r.read_u32 with ⟨f, r1⟩
  rw [hu] at h32
  simp at h32
  obtain ⟨hd, hle1, hle2⟩ := h32
  cases f with
  | error e => exact ⟨hd, hle1, hle2⟩
  | ok n =>
    have hlen : r1.data.length = r.data.length := by rw [hd]
    have hP := preserves_readN read h n r1 (by omega)
    rcases hrN : readN read n r1 with ⟨g, r2⟩
    rw [hrN] at hP
    simp at hP
    obtain ⟨hd2, hle3, hle4⟩ := hP
    have hd3 : r2.data = r.data := by rw [hd2, hd]
    simp only [hrN]
    exact ⟨hd3, by omega, by omega⟩

lemma advances_vec {α : Type}
    (read : BinaryReader → Except String α × BinaryReader)
    (vecRead : BinaryReader → Except String (List α) × BinaryReader)
    (hvec : ∀ r, vecRead r = match r.read_u32 with
      | (.error e, r1) => (.error e, r1)
      | (.ok n, r1) => readN read n r1)
    (size : α → Nat) (h : AdvancesBy read size) :
    AdvancesBy vecRead (fun vs => 4 + (vs.map size).sum) := by
  intro r vs r1 hEq
  rw [hvec] at hEq
  rcases hu : r.read_u32 with ⟨f, r2⟩
  rw [hu] at hEq
  cases f with
  | error e => simp at hEq
  | ok n =>
    have h2 := advances_ensureRead 4 (fun r => fromLEBytes ((r.data.drop r.cursor).take 4))
      BinaryReader.read_u32 (fun _ => rfl) r n r2 (by rw [hu])
    have h3 := advances_readN read size h n r2 vs r1 hEq
    have h22 : r2.cursor = r.cursor + 4 := h2.2
    refine ⟨by rw [h3.1, h2.1], ?_⟩
    show r1.cursor = r.cursor + (4 + (vs.map size).sum)
    rw [h3.2, h22]
    omega

lemma preserves_read_string : PreservesCursor BinaryReader.read_string := by
  intro r hc
  unfold BinaryReader.read_string
  have h32 := preserves_ensureRead 4 (fun r => fromLEBytes ((r.data.drop r.cursor).take 4))
    BinaryReader.read_u32 (fun _ => rfl) r hc
  rcases hu : r.read_u32 with ⟨f, r1⟩
  rw [hu] at h32
  simp at h32
  obtain ⟨hd, hle1, hle2⟩ := h32
  cases f with
  | error e => exact ⟨hd, hle1, hle2⟩
  | ok n =>
    have hlen : r1.data.length = r.data.length := by rw [hd]
    cases hens : r1.ensure_available n with
    | error e =>
      simp [hens]
      exact ⟨hd, hle1, hle2⟩
    | ok u =>
      have hb : r1.cursor + n ≤ r1.data.length := by
        have := ensure_ok_bound r1 n (by simpa using hens)
        exact this
      by_cases hv : isValidUtf8 ((r1.data.drop r1.cursor).take n) = true
      · simp [hens, hv]
        exact ⟨hd, by omega, by omega⟩
      · simp [hens, hv]
        exact ⟨hd, by omega, by omega⟩

lemma advances_read_string :
    AdvancesBy BinaryReader.read_string (fun s => 4 + s.length) := by
  intro r v r1 h
  unfold BinaryReader.read_string at h
  rcases hu : r.read_u32 with ⟨f, r2⟩
  rw [hu] at h
  cases f with
  | error e => simp at h
  | ok n =>
    have h2 := advances_ensureRead 4 (fun r => fromLEBytes ((r.data.drop r.cursor).take 4))
      BinaryReader.read_u32 (fun _ => rfl) r n r2 (by rw [hu])
    cases hens : r2.ensure_available n with
    | error e => simp [hens] at h
    | ok u =>
      have hb : r2.cursor + n ≤ r2.data.length := by
        have := ensure_ok_bound r2 n (by simpa using hens)
        exact this
      by_cases hv : isValidUtf8 ((r2.data.drop r2.cursor).take n) = true
      · simp [hens, hv] at h
        obtain ⟨hbv, hr1⟩ := h
        subst hr1
        have hvlen : v.length = n := by
          rw [← hbv]
          simp [List.length_take, List.length_drop]
          omega
        have h22 : r2.cursor = r.cursor + 4 := h2.2
        refine ⟨h2.1, ?_⟩
        show r2.cursor + n = r.cursor + (4 + v.length)
        omega
      · simp [hens, hv] at h

lemma preserves_read_vec_u8 : PreservesCursor BinaryReader.read_vec_u8 := by
  intro r hc
  unfold BinaryReader.read_vec_u8
  have h32 := preserves_ensureRead 4 (fun r => fromLEBytes ((r.data.drop r.cursor).take 4))
    BinaryReader.read_u32 (fun _ => rfl) r hc
  rcases hu : r.read_u32 with ⟨f, r1⟩
  rw [hu] at h32
  simp at h32
  obtain ⟨hd, hle1, hle2⟩ := h32
  cases f with
  | error e => exact ⟨hd, hle1, hle2⟩
  | ok n =>
    have hlen : r1.data.length = r.data.length := by rw [hd]
    cases hens : r1.ensure_available n with
    | error e =>
      simp [hens]
      exact ⟨hd, hle1, hle2⟩
    | ok u =>
      have hb : r1.cursor + n ≤ r1.data.length := by
        have := ensure_ok_bound r1 n (by simpa using hens)
        exact this
      simp [hens]
      exact ⟨hd, by omega, by omega⟩

lemma advances_read_vec_u8 :
    AdvancesBy BinaryReader.read_vec_u8 (fun v => 4 + v.length) := by
  intro r v r1 h
  unfold BinaryReader.read_vec_u8 at h
  rcases hu : r.read_u32 with ⟨f, r2⟩
  rw [hu] at h
  cases f with
  | error e => simp at h
  | ok n =>
    have h2 := advances_ensureRead 4 (fun r => fromLEBytes ((r.data.drop r.cursor).take 4))
      BinaryReader.read_u32 (fun _ => rfl) r n r2 (by rw [hu])
    cases hens : r2.ensure_available n with
    | error e => simp [hens] at h
    | ok u =>
      have hb : r2.cursor + n ≤ r2.data.length := by
        have := ensure_ok_bound r2 n (by simpa using hens)
        exact this
      simp [hens] at h
      obtain ⟨hbv, hr1⟩ := h
      subst hr1
      have hvlen : v.length = n := by
        rw [← hbv]
        simp [List.length_take, List.length_drop]
        omega
      have h22 : r2.cursor = r.cursor + 4 := h2.2
      refine ⟨h2.1, ?_⟩
      show r2.cursor + n = r.cursor + (4 + v.length)
      omega

lemma sum_map_const {α : Type} (c : Nat) :
    ∀ xs : List α, (xs.map (fun _ => c)).sum = c * xs.length := by
  intro xs
  induction xs with
  | nil => simp
  | cons x xs ih =>
    simp [ih, Nat.mul_succ]
    have hcomm := Nat.mul_comm c xs.length
    omega

instance instDecidableWfU8 (v : Nat) : Decidable (wfU8 v) :=
  inferInstanceAs (Decidable (v < 2 ^ 8))

instance instDecidableWfU16 (v : Nat) : Decidable (wfU16 v) :=
  inferInstanceAs (Decidable (v < 2 ^ 16))

instance instDecidableWfU32 (v : Nat) : Decidable (wfU32 v) :=
  inferInstanceAs (Decidable (v < 2 ^ 32))

instance instDecidableWfU64 (v : Nat) : Decidable (wfU64 v) :=
  inferInstanceAs (Decidable (v < 2 ^ 64))

instance instDecidableWfI8 (v : Int) : Decidable (wfI8 v) :=
  inferInstanceAs (Decidable (-(2 ^ 7) ≤ v ∧ v < 2 ^ 7))

instance instDecidableWfI16 (v : Int) : Decidable (wfI16 v) :=
  inferInstanceAs (Decidable (-(2 ^ 15) ≤ v ∧ v < 2 ^ 15))

instance instDecidableWfI32 (v : Int) : Decidable (wfI32 v) :=
  inferInstanceAs (Decidable (-(2 ^ 31) ≤ v ∧ v < 2 ^ 31))

instance instDecidableWfI64 (v : Int) : Decidable (wfI64 v) :=
  inferInstanceAs (Decidable (-(2 ^ 63) ≤ v ∧ v < 2 ^ 63))

instance instDecidableWfStr (s : List Nat) : Decidable (wfStr s) :=
  inferInstanceAs (Decidable (isValidUtf8 s = true ∧ s.length < 2 ^ 32))

instance instDecidableValueWf : (v : Value) → Decidable v.wf
  | .vU8 x => inferInstanceAs (Decidable (x < 2 ^ 8))
  | .vI8 x => inferInstanceAs (Decidable (-(2 ^ 7) ≤ x ∧ x < 2 ^ 7))
  | .vU16 x => inferInstanceAs (Decidable (x < 2 ^ 16))
  | .vI16 x => inferInstanceAs (Decidable (-(2 ^ 15) ≤ x ∧ x < 2 ^ 15))
  | .vU32 x => inferInstanceAs (Decidable (x < 2 ^ 32))
  | .vI32 x => inferInstanceAs (Decidable (-(2 ^ 31) ≤ x ∧ x < 2 ^ 31))
  | .vU64 x => inferInstanceAs (Decidable (x < 2 ^ 64))
  | .vI64 x => inferInstanceAs (Decidable (-(2 ^ 63) ≤ x ∧ x < 2 ^ 63))
  | .vF32 x => inferInstanceAs (Decidable (x < 2 ^ 32))
  | .vF64 x => inferInstanceAs (Decidable (x < 2 ^ 64))
  | .vBool _ => inferInstanceAs (Decidable True)
  | .vString s => inferInstanceAs (Decidable (isValidUtf8 s = true ∧ s.length < 2 ^ 32))
  | .vVecU8 x => inferInstanceAs (Decidable (x.length < 2 ^ 32 ∧ ∀ y ∈ x, y < 2 ^ 8))
  | .vVecU16 x => inferInstanceAs (Decidable (x.length < 2 ^ 32 ∧ ∀ y ∈ x, y < 2 ^ 16))
  | .vVecU32 x => inferInstanceAs (Decidable (x.length < 2 ^ 32 ∧ ∀ y ∈ x, y < 2 ^ 32))
  | .vVecU64 x => inferInstanceAs (Decidable (x.length < 2 ^ 32 ∧ ∀ y ∈ x, y < 2 ^ 64))
  | .vVecI8 x =>
    inferInstanceAs (Decidable (x.length < 2 ^ 32 ∧ ∀ y ∈ x, -(2 ^ 7) ≤ y ∧ y < 2 ^ 7))
  | .vVecI16 x =>
    inferInstanceAs (Decidable (x.length < 2 ^ 32 ∧ ∀ y ∈ x, -(2 ^ 15) ≤ y ∧ y < 2 ^ 15))
  | .vVecI32 x =>
    inferInstanceAs (Decidable (x.length < 2 ^ 32 ∧ ∀ y ∈ x, -(2 ^ 31) ≤ y ∧ y < 2 ^ 31))
  | .vVecI64 x =>
    inferInstanceAs (Decidable (x.length < 2 ^ 32 ∧ ∀ y ∈ x, -(2 ^ 63) ≤ y ∧ y < 2 ^ 63))
  | .vVecF32 x => inferInstanceAs (Decidable (x.length < 2 ^ 32 ∧ ∀ y ∈ x, y < 2 ^ 32))
  | .vVecF64 x => inferInstanceAs (Decidable (x.length < 2 ^ 32 ∧ ∀ y ∈ x, y < 2 ^ 64))
  | .vVecString x =>
    inferInstanceAs
      (Decidable (x.length < 2 ^ 32 ∧ ∀ s ∈ x, isValidUtf8 s = true ∧ s.length < 2 ^ 32))

/-! ### Claim theorems -/

/-- Claim C1: for every supported primitive value (u8, i8, u16, i16, u32,
i32, u64, i64, f32 and f64 as byte-exact bit patterns, and bool), writing it
with the corresponding `BinaryWriter` operation and reading the resulting
buffer back with the corresponding `BinaryReader` operation returns exactly
that value (and leaves the cursor after its encoding). -/
theorem claim_C1 :
    (∀ v : Nat, wfU8 v →
      (BinaryReader.new (BinaryWriter.new.write_u8 v).get_data).read_u8 =
        (.ok v, ⟨(BinaryWriter.new.write_u8 v).get_data, 1⟩)) ∧
    (∀ v : Int, wfI8 v →
      (BinaryReader.new (BinaryWriter.new.write_i8 v).get_data).read_i8 =
        (.ok v, ⟨(BinaryWriter.new.write_i8 v).get_data, 1⟩)) ∧
    (∀ v : Nat, wfU16 v →
      (BinaryReader.new (BinaryWriter.new.write_u16 v).get_data).read_u16 =
        (.ok v, ⟨(BinaryWriter.new.write_u16 v).get_data, 2⟩)) ∧
    (∀ v : Int, wfI16 v →
      (BinaryReader.new (BinaryWriter.new.write_i16 v).get_data).read_i16 =
        (.ok v, ⟨(BinaryWriter.new.write_i16 v).get_data, 2⟩)) ∧
    (∀ v : Nat, wfU32 v →
      (BinaryReader.new (BinaryWriter.new.write_u32 v).get_data).read_u32 =
        (.ok v, ⟨(BinaryWriter.new.write_u32 v).get_data, 4⟩)) ∧
    (∀ v : Int, wfI32 v →
      (BinaryReader.new (BinaryWriter.new.write_i32 v).get_data).read_i32 =
        (.ok v, ⟨(BinaryWriter.new.write_i32 v).get_data, 4⟩)) ∧
    (∀ v : Nat, wfU64 v →
      (BinaryReader.new (BinaryWriter.new.write_u64 v).get_data).read_u64 =
        (.ok v, ⟨(BinaryWriter.new.write_u64 v).get_data, 8⟩)) ∧
    (∀ v : Int, wfI64 v →
      (BinaryReader.new (BinaryWriter.new.write_i64 v).get_data).read_i64 =
        (.ok v, ⟨(BinaryWriter.new.write_i64 v).get_data, 8⟩)) ∧
    (∀ bits : Nat, bits < 2 ^ 32 →
      (BinaryReader.new (BinaryWriter.new.write_f32 bits).get_data).read_f32 =
        (.ok bits, ⟨(BinaryWriter.new.write_f32 bits).get_data, 4⟩)) ∧
    (∀ bits : Nat, bits < 2 ^ 64 →
      (BinaryReader.new (BinaryWriter.new.write_f64 bits).get_data).read_f64 =
        (.ok bits, ⟨(BinaryWriter.new.write_f64 bits).get_data, 8⟩)) ∧
    (∀ b : Bool,
      (BinaryReader.new (BinaryWriter.new.write_bool b).get_data).read_bool =
        (.ok b, ⟨(BinaryWriter.new.write_bool b).get_data, 1⟩)) := by
  refine ⟨fun v hv => ?_, fun v hv => ?_, fun v hv => ?_, fun v hv => ?_, fun v hv => ?_,
    fun v hv => ?_, fun v hv => ?_, fun v hv => ?_, fun v hv => ?_, fun v hv => ?_,
    fun b => ?_⟩
  · simpa [BinaryWriter.new, BinaryWriter.get_data, BinaryWriter.write_u8, BinaryReader.new]
      using read_u8_at [] [] v
  · simpa [BinaryWriter.new, BinaryWriter.get_data, BinaryWriter.write_i8, BinaryReader.new]
      using read_i8_at [] [] v hv
  · simpa [BinaryWriter.new, BinaryWriter.get_data, BinaryWriter.write_u16, BinaryReader.new]
      using read_u16_at [] [] v hv
  · simpa [BinaryWriter.new, BinaryWriter.get_data, BinaryWriter.write_i16, BinaryReader.new]
      using read_i16_at [] [] v hv
  · simpa [BinaryWriter.new, BinaryWriter.get_data, BinaryWriter.write_u32, BinaryReader.new]
      using read_u32_at [] [] v hv
  · simpa [BinaryWriter.new, BinaryWriter.get_data, BinaryWriter.write_i32, BinaryReader.new]
      using read_i32_at [] [] v hv
  · simpa [BinaryWriter.new, BinaryWriter.get_data, BinaryWriter.write_u64, BinaryReader.new]
      using read_u64_at [] [] v hv
  · simpa [BinaryWriter.new, BinaryWriter.get_data, BinaryWriter.write_i64, BinaryReader.new]
      using read_i64_at [] [] v hv
  · simpa [BinaryWriter.new, BinaryWriter.get_data, BinaryWriter.write_f32, BinaryReader.new]
      using read_f32_at [] [] v hv
  · simpa [BinaryWriter.new, BinaryWriter.get_data, BinaryWriter.write_f64, BinaryReader.new]
      using read_f64_at [] [] v hv
  · simpa [BinaryWriter.new, BinaryWriter.get_data, BinaryWriter.write_bool, BinaryReader.new]
      using read_bool_at [] [] b

/-- Witness for C1 at extreme values: u8 255, i8 -128, u16 65535, i16 -32768,
u32 and i32 extremes, u64 and i64 extremes, an f32 NaN bit pattern, the f64
negative-zero bit pattern, and bool true. -/
theorem claim_C1_witness :
    (BinaryReader.new (BinaryWriter.new.write_u8 255).get_data).read_u8 =
      (.ok 255, ⟨(BinaryWriter.new.write_u8 255).get_data, 1⟩) ∧
    (BinaryReader.new (BinaryWriter.new.write_i8 (-128)).get_data).read_i8 =
      (.ok (-128), ⟨(BinaryWriter.new.write_i8 (-128)).get_data, 1⟩) ∧
    (BinaryReader.new (BinaryWriter.new.write_u16 65535).get_data).read_u16 =
      (.ok 65535, ⟨(BinaryWriter.new.write_u16 65535).get_data, 2⟩) ∧
    (BinaryReader.new (BinaryWriter.new.write_i16 (-32768)).get_data).read_i16 =
      (.ok (-32768), ⟨(BinaryWriter.new.write_i16 (-32768)).get_data, 2⟩) ∧
    (BinaryReader.new (BinaryWriter.new.write_u32 4294967295).get_data).read_u32 =
      (.ok 4294967295, ⟨(BinaryWriter.new.write_u32 4294967295).get_data, 4⟩) ∧
    (BinaryReader.new (BinaryWriter.new.write_i32 (-2147483648)).get_data).read_i32 =
      (.ok (-2147483648), ⟨(BinaryWriter.new.write_i32 (-2147483648)).get_data, 4⟩) ∧
    (BinaryReader.new
        (BinaryWriter.new.write_u64 18446744073709551615).get_data).read_u64 =
      (.ok 18446744073709551615,
        ⟨(BinaryWriter.new.write_u64 18446744073709551615).get_data, 8⟩) ∧
    (BinaryReader.new
        (BinaryWriter.new.write_i64 (-9223372036854775808)).get_data).read_i64 =
      (.ok (-9223372036854775808),
        ⟨(BinaryWriter.new.write_i64 (-9223372036854775808)).get_data, 8⟩) ∧
    (BinaryReader.new (BinaryWriter.new.write_f32 0x7FC00000).get_data).read_f32 =
      (.ok 0x7FC00000, ⟨(BinaryWriter.new.write_f32 0x7FC00000).get_data, 4⟩) ∧
    (BinaryReader.new
        (BinaryWriter.new.write_f64 0x8000000000000000).get_data).read_f64 =
      (.ok 0x8000000000000000,
        ⟨(BinaryWriter.new.write_f64 0x8000000000000000).get_data, 8⟩) ∧
    (BinaryReader.new (BinaryWriter.new.write_bool true).get_data).read_bool =
      (.ok true, ⟨(BinaryWriter.new.write_bool true).get_data, 1⟩) :=
  ⟨claim_C1.1 255 (by decide),
   claim_C1.2.1 (-128) (by decide),
   claim_C1.2.2.1 65535 (by decide),
   claim_C1.2.2.2.1 (-32768) (by decide),
   claim_C1.2.2.2.2.1 4294967295 (by decide),
   claim_C1.2.2.2.2.2.1 (-2147483648) (by decide),
   claim_C1.2.2.2.2.2.2.1 18446744073709551615 (by decide),
   claim_C1.2.2.2.2.2.2.2.1 (-9223372036854775808) (by decide),
   claim_C1.2.2.2.2.2.2.2.2.1 0x7FC00000 (by decide),
   claim_C1.2.2.2.2.2.2.2.2.2.1 0x8000000000000000 (by decide),
   claim_C1.2.2.2.2.2.2.2.2.2.2 true⟩

/-- Claim C5: writing any finite list of well-formed values of mixed kinds
into one writer and reading back any prefix of the same kind sequence from
the resulting buffer returns exactly those values, with the cursor after
each read equal to the total encoded byte length of the values read so
far (instantiate `i` at each prefix length). -/
theorem claim_C5 (vs : List Value) (h : ∀ v ∈ vs, v.wf) (i : Nat)
    (hi : i ≤ vs.length) :
    readValues ((vs.take i).map Value.kind)
        (BinaryReader.new (writeValues BinaryWriter.new vs).get_data) =
      (.ok (vs.take i),
        ⟨(writeValues BinaryWriter.new vs).get_data,
          ((vs.take i).flatMap encValue).length⟩) := by
  have hdata : (writeValues BinaryWriter.new vs).get_data = vs.flatMap encValue := by
    simpa [BinaryWriter.get_data, BinaryWriter.new] using
      writeValues_data BinaryWriter.new vs
  have hsplit : vs.flatMap encValue
      = (vs.take i).flatMap encValue ++ (vs.drop i).flatMap encValue := by
    rw [← List.flatMap_append, List.take_append_drop]
  have h1 : ∀ v ∈ vs.take i, v.wf := fun v hv => h v (List.take_subset i vs hv)
  have hr := readValues_at (vs.take i) [] ((vs.drop i).flatMap encValue) h1
  rw [hdata, hsplit]
  simpa [BinaryReader.new] using hr

/-- Witness for C5: a concrete mixed sequence (u8, i16, string, i16 vector,
bool) written and fully read back, with the final cursor at the total
encoded length. -/
theorem claim_C5_witness :
    readValues (([Value.vU8 255, Value.vI16 (-32768), Value.vString [72, 105],
          Value.vVecI16 [-1, -2, -3], Value.vBool true].take 5).map Value.kind)
        (BinaryReader.new (writeValues BinaryWriter.new
          [Value.vU8 255, Value.vI16 (-32768), Value.vString [72, 105],
           Value.vVecI16 [-1, -2, -3], Value.vBool true]).get_data) =
      (.ok ([Value.vU8 255, Value.vI16 (-32768), Value.vString [72, 105],
          Value.vVecI16 [-1, -2, -3], Value.vBool true].take 5),
        ⟨(writeValues BinaryWriter.new
            [Value.vU8 255, Value.vI16 (-32768), Value.vString [72, 105],
             Value.vVecI16 [-1, -2, -3], Value.vBool true]).get_data,
          (([Value.vU8 255, Value.vI16 (-32768), Value.vString [72, 105],
             Value.vVecI16 [-1, -2, -3], Value.vBool true].take 5).flatMap
            encValue).length⟩) :=
  claim_C5
    [Value.vU8 255, Value.vI16 (-32768), Value.vString [72, 105],
     Value.vVecI16 [-1, -2, -3], Value.vBool true]
    (by decide) 5 (by decide)

/-- Claim C7: `write_string` appends exactly the 4-byte little-endian UTF-8
byte length (byte count, no terminator) followed by the bytes; the prefix
has length 4 and decodes back to the byte count for any string shorter than
`2 ^ 32` bytes; encoding the 13 ASCII bytes of "Hello, World!" yields the
4-byte little-endian value 13 followed by those 13 bytes. -/
theorem claim_C7 :
    (∀ (w : BinaryWriter) (s : List Nat),
      (w.write_string s).data = w.data ++ toLEBytes 4 s.length ++ s) ∧
    (∀ s : List Nat, (toLEBytes 4 s.length).length = 4) ∧
    (∀ s : List Nat, s.length < 2 ^ 32 →
      fromLEBytes (toLEBytes 4 s.length) = s.length) ∧
    (BinaryWriter.new.write_string
        [72, 101, 108, 108, 111, 44, 32, 87, 111, 114, 108, 100, 33]).get_data =
      [13, 0, 0, 0, 72, 101, 108, 108, 111, 44, 32, 87, 111, 114, 108, 100, 33] := by
  refine ⟨fun w s => ?_, fun s => toLEBytes_length 4 s.length, fun s hs => ?_, rfl⟩
  · simpa [List.append_assoc] using write_string_data w s
  · rw [fromLEBytes_toLEBytes]
    exact Nat.mod_eq_of_lt (by norm_num at hs ⊢; omega)

/-- Witness for C7: the length field of a 13-byte string decodes back to
13. -/
theorem claim_C7_witness :
    fromLEBytes (toLEBytes 4
        ([72, 101, 108, 108, 111, 44, 32, 87, 111, 114, 108, 100, 33] : List Nat).length) =
      ([72, 101, 108, 108, 111, 44, 32, 87, 111, 114, 108, 100, 33] : List Nat).length :=
  claim_C7.2.2.1 [72, 101, 108, 108, 111, 44, 32, 87, 111, 114, 108, 100, 33] (by decide)

/-- Claim C10: no writer operation fails or checks lengths — for every input
string or slice, of any length, the buffer equation holds: the 4-byte prefix
(which decodes to the length taken modulo `2 ^ 32`) is appended, followed by
the entire payload. -/
theorem claim_C10 :
    (∀ (w : BinaryWriter) (s : List Nat),
      (w.write_string s).data = w.data ++ toLEBytes 4 s.length ++ s) ∧
    (∀ (w : BinaryWriter) (v : List Nat),
      (w.write_vec_u8 v).data = w.data ++ toLEBytes 4 v.length ++ v) ∧
    (∀ (w : BinaryWriter) (v : List Nat),
      (w.write_vec_u16 v).data
        = w.data ++ toLEBytes 4 v.length ++ v.flatMap (toLEBytes 2)) ∧
    (∀ n : Nat, fromLEBytes (toLEBytes 4 n) = n % 2 ^ 32) ∧
    (∀ n : Nat, (toLEBytes 4 n).length = 4) := by
  refine ⟨fun w s => ?_, fun w v => ?_, fun w v => ?_, fun n => ?_, fun n => toLEBytes_length 4 n⟩
  · simpa [List.append_assoc] using write_string_data w s
  · simp [BinaryWriter.write_vec_u8, BinaryWriter.write_u32]
  · simpa [List.append_assoc] using write_vec_u16_data w v
  · rw [fromLEBytes_toLEBytes]

/-- Claim C8: on every reader state, the signed reads of width at least 16
are exactly the unsigned reads composed with two's-complement bit
reinterpretation — same error, same cursor, reinterpreted value. -/
theorem claim_C8 (r : BinaryReader) :
    r.read_i16 = ((r.read_u16.1).map (toSigned 16), r.read_u16.2) ∧
    r.read_i32 = ((r.read_u32.1).map (toSigned 32), r.read_u32.2) ∧
    r.read_i64 = ((r.read_u64.1).map (toSigned 64), r.read_u64.2) := by
  refine ⟨?_, ?_, ?_⟩
  · rcases hu : r.read_u16 with ⟨f, r1⟩
    cases f <;> simp [BinaryReader.read_i16, hu, Except.map]
  · rcases hu : r.read_u32 with ⟨f, r1⟩
    cases f <;> simp [BinaryReader.read_i32, hu, Except.map]
  · rcases hu : r.read_u64 with ⟨f, r1⟩
    cases f <;> simp [BinaryReader.read_i64, hu, Except.map]

/-- Claim C3: with at least one byte remaining, `read_bool` decodes byte 0
as false and byte 1 as true, and on any other byte does not return a
recoverable error but aborts (the `fatal` outcome models the `panic!`). -/
theorem claim_C3 (r : BinaryReader) (hrem : r.cursor < r.data.length) :
    (r.data.getD r.cursor 0 = 0 →
      r.read_bool = (.ok false, ⟨r.data, r.cursor + 1⟩)) ∧
    (r.data.getD r.cursor 0 = 1 →
      r.read_bool = (.ok true, ⟨r.data, r.cursor + 1⟩)) ∧
    (∀ b : Nat, r.data.getD r.cursor 0 = b → b ≠ 0 → b ≠ 1 →
      r.read_bool = (.fatal ("Invalid boolean value: " ++ toString b),
        ⟨r.data, r.cursor + 1⟩)) := by
  have h8 : r.read_u8 = (.ok (r.data.getD r.cursor 0), ⟨r.data, r.cursor + 1⟩) := by
    unfold BinaryReader.read_u8 BinaryReader.ensure_available
    rw [if_neg (by omega)]
  refine ⟨fun h0 => ?_, fun h1 => ?_, fun b hb h0 h1 => ?_⟩
  · unfold BinaryReader.read_bool
    rw [h8, h0]
  · unfold BinaryReader.read_bool
    rw [h8, h1]
  · unfold BinaryReader.read_bool
    rw [h8, hb]
    obtain ⟨c, rfl⟩ : ∃ c, b = c + 2 := ⟨b - 2, by omega⟩
    rfl

/-- Witness for C3 at bytes 0, 1 and 7. -/
theorem claim_C3_witness :
    BinaryReader.read_bool ⟨[0], 0⟩ = (.ok false, ⟨[0], 1⟩) ∧
    BinaryReader.read_bool ⟨[1], 0⟩ = (.ok true, ⟨[1], 1⟩) ∧
    BinaryReader.read_bool ⟨[7], 0⟩ =
      (.fatal ("Invalid boolean value: " ++ toString 7), ⟨[7], 1⟩) :=
  ⟨(claim_C3 ⟨[0], 0⟩ (by decide)).1 rfl,
   (claim_C3 ⟨[1], 0⟩ (by decide)).2.1 rfl,
   (claim_C3 ⟨[7], 0⟩ (by decide)).2.2 7 rfl (by decide) (by decide)⟩

/-- Claim C4: when the 4-byte length prefix and the declared payload are
available but the payload is not valid UTF-8, `read_string` returns a
recoverable error and the cursor nonetheless advances past the whole
declared region (4 prefix bytes plus the declared payload length), exactly
as on success. -/
theorem claim_C4 (pre post s : List Nat) (hlen : s.length < 2 ^ 32)
    (hbad : isValidUtf8 s = false) :
    BinaryReader.read_string ⟨pre ++ (toLEBytes 4 s.length ++ s) ++ post, pre.length⟩ =
      (.error "invalid utf-8",
        ⟨pre ++ (toLEBytes 4 s.length ++ s) ++ post, pre.length + (4 + s.length)⟩) := by
  have hassoc : pre ++ (toLEBytes 4 s.length ++ s) ++ post
      = pre ++ toLEBytes 4 s.length ++ (s ++ post) := by simp
  rw [hassoc]
  unfold BinaryReader.read_string
  rw [read_u32_at pre (s ++ post) s.length hlen]
  have hok : BinaryReader.ensure_available
      ⟨pre ++ (toLEBytes 4 s.length ++ (s ++ post)), pre.length + 4⟩ s.length = .ok () := by
    unfold BinaryReader.ensure_available
    rw [if_neg (by simp only [List.length_append, toLEBytes_length]; omega)]
  have hdrop : (toLEBytes 4 s.length ++ (s ++ post)).drop 4 = s ++ post := by
    have hd := List.drop_left (toLEBytes 4 s.length) (s ++ post)
    rwa [toLEBytes_length] at hd
  have htake : (s ++ post).take s.length = s := take_len_append s.length s post rfl
  simp [hok, hdrop, htake, hbad, Nat.add_assoc]

/-- Witness for C4: buffer `[1, 0, 0, 0, 255]` declares a 1-byte payload
`0xFF`, which is not valid UTF-8; the read fails yet the cursor lands at
5. -/
theorem claim_C4_witness :
    BinaryReader.read_string ⟨[1, 0, 0, 0, 255], 0⟩ =
      (.error "invalid utf-8", ⟨[1, 0, 0, 0, 255], 5⟩) :=
  claim_C4 [] [] [255] (by decide) (by decide)

/-- Claim C2 counterexample: on the buffer `[5, 0, 0, 0]` (a length prefix
declaring 5 payload bytes, none present), `read_string` fails with the
truncated-input error, yet the cursor after the failed call is 4, not its
pre-read position 0 — the length prefix was already consumed when the
payload availability check failed. -/
theorem claim_C2_counterexample :
    (BinaryReader.read_string ⟨[5, 0, 0, 0], 0⟩).1 = .error "Unexpected end of data" ∧
    (BinaryReader.read_string ⟨[5, 0, 0, 0], 0⟩).2.cursor = 4 ∧
    (4 : Nat) ≠ 0 :=
  ⟨rfl, rfl, by decide⟩

/-- Claim C2 (amended): the availability check runs before any byte is
consumed for each individual fixed-width read, so every fixed-width
primitive read (u8, i8, u16, i16, u32, i32, u64, i64, f32, f64, bool) that
fails leaves the reader exactly as it was; compound reads are built from
such sub-reads, so a truncated-input failure leaves the cursor at the last
successful sub-read boundary — for `read_string` and `read_vec_u8` either
the pre-read position (length prefix truncated) or exactly 4 bytes past it
(prefix consumed, payload truncated) — rather than always at the pre-read
position. -/
theorem claim_C2_amended :
    (∀ (r : BinaryReader) (e : String), (r.read_u8).1 = .error e → (r.read_u8).2 = r) ∧
    (∀ (r : BinaryReader) (e : String), (r.read_i8).1 = .error e → (r.read_i8).2 = r) ∧
    (∀ (r : BinaryReader) (e : String), (r.read_u16).1 = .error e → (r.read_u16).2 = r) ∧
    (∀ (r : BinaryReader) (e : String), (r.read_i16).1 = .error e → (r.read_i16).2 = r) ∧
    (∀ (r : BinaryReader) (e : String), (r.read_u32).1 = .error e → (r.read_u32).2 = r) ∧
    (∀ (r : BinaryReader) (e : String), (r.read_i32).1 = .error e → (r.read_i32).2 = r) ∧
    (∀ (r : BinaryReader) (e : String), (r.read_u64).1 = .error e → (r.read_u64).2 = r) ∧
    (∀ (r : BinaryReader) (e : String), (r.read_i64).1 = .error e → (r.read_i64).2 = r) ∧
    (∀ (r : BinaryReader) (e : String), (r.read_f32).1 = .error e → (r.read_f32).2 = r) ∧
    (∀ (r : BinaryReader) (e : String), (r.read_f64).1 = .error e → (r.read_f64).2 = r) ∧
    (∀ (r : BinaryReader) (e : String), (r.read_bool).1 = .err e → (r.read_bool).2 = r) ∧
    (∀ r : BinaryReader, (r.read_string).1 = .error "Unexpected end of data" →
      (r.read_string).2.cursor = r.cursor ∨ (r.read_string).2.cursor = r.cursor + 4) ∧
    (∀ (r : BinaryReader) (e : String), (r.read_vec_u8).1 = .error e →
      (r.read_vec_u8).2.cursor = r.cursor ∨ (r.read_vec_u8).2.cursor = r.cursor + 4) :=
  ⟨ensureRead_err 1 (fun r => r.data.getD r.cursor 0) BinaryReader.read_u8 (fun _ => rfl),
   ensureRead_err 1 (fun r => toSigned 8 (r.data.getD r.cursor 0))
     BinaryReader.read_i8 (fun _ => rfl),
   ensureRead_err 2 (fun r => fromLEBytes ((r.data.drop r.cursor).take 2))
     BinaryReader.read_u16 (fun _ => rfl),
   read_i16_err,
   ensureRead_err 4 (fun r => fromLEBytes ((r.data.drop r.cursor).take 4))
     BinaryReader.read_u32 (fun _ => rfl),
   read_i32_err,
   ensureRead_err 8 (fun r => fromLEBytes ((r.data.drop r.cursor).take 8))
     BinaryReader.read_u64 (fun _ => rfl),
   read_i64_err,
   ensureRead_err 4 (fun r => fromLEBytes ((r.data.drop r.cursor).take 4))
     BinaryReader.read_f32 (fun _ => rfl),
   ensureRead_err 8 (fun r => fromLEBytes ((r.data.drop r.cursor).take 8))
     BinaryReader.read_f64 (fun _ => rfl),
   read_bool_err,
   read_string_err_cursor,
   read_vec_u8_err_cursor⟩

/-- Witness for the amended C2: a failed `read_u32` on a 2-byte buffer
leaves the reader unchanged, and the failed `read_string` of the C2
counterexample lands on the 4-byte prefix boundary. -/
theorem claim_C2_amended_witness :
    (BinaryReader.read_u32 ⟨[1, 2], 0⟩).2 = ⟨[1, 2], 0⟩ ∧
    ((BinaryReader.read_string ⟨[5, 0, 0, 0], 0⟩).2.cursor = 0 ∨
      (BinaryReader.read_string ⟨[5, 0, 0, 0], 0⟩).2.cursor = 0 + 4) :=
  ⟨claim_C2_amended.2.2.2.2.1 ⟨[1, 2], 0⟩ "Unexpected end of data" rfl,
   claim_C2_amended.2.2.2.2.2.2.2.2.2.2.2.1 ⟨[5, 0, 0, 0], 0⟩ rfl⟩

/-- Claim C6 counterexample: the buffer `[3, 0, 0, 0, 7]` declares 3 u8
elements but holds only 1. Element 1 (the byte 7) is fully available, so the
claimed per-element behavior would consume it and fail at element 2 with the
cursor at 5; `read_vec_u8` instead checks the whole payload upfront and
fails with the cursor at 4, before decoding any element. -/
theorem claim_C6_counterexample :
    (BinaryReader.read_vec_u8 ⟨[3, 0, 0, 0, 7], 0⟩).1 = .error "Unexpected end of data" ∧
    (BinaryReader.read_vec_u8 ⟨[3, 0, 0, 0, 7], 0⟩).2.cursor = 4 ∧
    (4 : Nat) ≠ 5 :=
  ⟨rfl, rfl, by decide⟩

/-- Claim C6 (amended): every sequence read first reads the 4-byte element
count (itself subject to the truncation check) and then decodes exactly that
many elements in order by each element's rule. For the per-element-loop
kinds (i8, u16, i16, u32, i32, u64, i64, f32, f64), a count exceeding the
remaining bytes raises the truncated-input error at the first element that
cannot be fully read, after consuming the preceding complete elements; a
string-vector read surfaces the error (and reader state) of the first
failing string read after the complete strings before it. `read_vec_u8` is
the exception: it checks the whole declared payload in one step and fails
before decoding any element, leaving the cursor just past the count
prefix. -/
theorem claim_C6_amended :
    (∀ r : BinaryReader, r.data.length < r.cursor + 4 →
      r.read_vec_u16 = (.error "Unexpected end of data", r)) ∧
    (∀ (pre post : List Nat) (v : List Nat), v.length < 2 ^ 32 → (∀ x ∈ v, wfU16 x) →
      BinaryReader.read_vec_u16
          ⟨pre ++ (toLEBytes 4 v.length ++ v.flatMap (toLEBytes 2)) ++ post, pre.length⟩ =
        (.ok v, ⟨pre ++ (toLEBytes 4 v.length ++ v.flatMap (toLEBytes 2)) ++ post,
          pre.length + (4 + (v.flatMap (toLEBytes 2)).length)⟩)) ∧
    (∀ (pre rest : List Nat) (n : Nat), n < 2 ^ 32 → rest.length < n →
      BinaryReader.read_vec_u8 ⟨pre ++ toLEBytes 4 n ++ rest, pre.length⟩ =
        (.error "Unexpected end of data",
          ⟨pre ++ toLEBytes 4 n ++ rest, pre.length + 4⟩)) ∧
    (∀ (pre rest : List Nat) (n : Nat), n < 2 ^ 32 → rest.length < n * 1 →
      BinaryReader.read_vec_i8 ⟨pre ++ toLEBytes 4 n ++ rest, pre.length⟩ =
        (.error "Unexpected end of data",
          ⟨pre ++ toLEBytes 4 n ++ rest, pre.length + 4 + 1 * (rest.length / 1)⟩)) ∧
    (∀ (pre rest : List Nat) (n : Nat), n < 2 ^ 32 → rest.length < n * 2 →
      BinaryReader.read_vec_u16 ⟨pre ++ toLEBytes 4 n ++ rest, pre.length⟩ =
        (.error "Unexpected end of data",
          ⟨pre ++ toLEBytes 4 n ++ rest, pre.length + 4 + 2 * (rest.length / 2)⟩)) ∧
    (∀ (pre rest : List Nat) (n : Nat), n < 2 ^ 32 → rest.length < n * 2 →
      BinaryReader.read_vec_i16 ⟨pre ++ toLEBytes 4 n ++ rest, pre.length⟩ =
        (.error "Unexpected end of data",
          ⟨pre ++ toLEBytes 4 n ++ rest, pre.length + 4 + 2 * (rest.length / 2)⟩)) ∧
    (∀ (pre rest : List Nat) (n : Nat), n < 2 ^ 32 → rest.length < n * 4 →
      BinaryReader.read_vec_u32 ⟨pre ++ toLEBytes 4 n ++ rest, pre.length⟩ =
        (.error "Unexpected end of data",
          ⟨pre ++ toLEBytes 4 n ++ rest, pre.length + 4 + 4 * (rest.length / 4)⟩)) ∧
    (∀ (pre rest : List Nat) (n : Nat), n < 2 ^ 32 → rest.length < n * 4 →
      BinaryReader.read_vec_i32 ⟨pre ++ toLEBytes 4 n ++ rest, pre.length⟩ =
        (.error "Unexpected end of data",
          ⟨pre ++ toLEBytes 4 n ++ rest, pre.length + 4 + 4 * (rest.length / 4)⟩)) ∧
    (∀ (pre rest : List Nat) (n : Nat), n < 2 ^ 32 → rest.length < n * 8 →
      BinaryReader.read_vec_u64 ⟨pre ++ toLEBytes 4 n ++ rest, pre.length⟩ =
        (.error "Unexpected end of data",
          ⟨pre ++ toLEBytes 4 n ++ rest, pre.length + 4 + 8 * (rest.length / 8)⟩)) ∧
    (∀ (pre rest : List Nat) (n : Nat), n < 2 ^ 32 → rest.length < n * 8 →
      BinaryReader.read_vec_i64 ⟨pre ++ toLEBytes 4 n ++ rest, pre.length⟩ =
        (.error "Unexpected end of data",
          ⟨pre ++ toLEBytes 4 n ++ rest, pre.length + 4 + 8 * (rest.length / 8)⟩)) ∧
    (∀ (pre rest : List Nat) (n : Nat), n < 2 ^ 32 → rest.length < n * 4 →
      BinaryReader.read_vec_f32 ⟨pre ++ toLEBytes 4 n ++ rest, pre.length⟩ =
        (.error "Unexpected end of data",
          ⟨pre ++ toLEBytes 4 n ++ rest, pre.length + 4 + 4 * (rest.length / 4)⟩)) ∧
    (∀ (pre rest : List Nat) (n : Nat), n < 2 ^ 32 → rest.length < n * 8 →
      BinaryReader.read_vec_f64 ⟨pre ++ toLEBytes 4 n ++ rest, pre.length⟩ =
        (.error "Unexpected end of data",
          ⟨pre ++ toLEBytes 4 n ++ rest, pre.length + 4 + 8 * (rest.length / 8)⟩)) ∧
    (∀ (pre post : List Nat) (ss : List (List Nat)) (n : Nat) (e : String)
        (rf : BinaryReader), (∀ s ∈ ss, wfStr s) → ss.length < n → n < 2 ^ 32 →
      BinaryReader.read_string
          ⟨(pre ++ toLEBytes 4 n) ++ ss.flatMap (fun s => toLEBytes 4 s.length ++ s) ++ post,
            ((pre ++ toLEBytes 4 n) ++ ss.flatMap (fun s => toLEBytes 4 s.length ++ s)).length⟩
          = (.error e, rf) →
      BinaryReader.read_vec_string
          ⟨(pre ++ toLEBytes 4 n) ++ ss.flatMap (fun s => toLEBytes 4 s.length ++ s) ++ post,
            pre.length⟩ = (.error e, rf)) := by
  refine ⟨fun r hr => ?_, fun pre post v h1 h2 => read_vec_u16_at pre post v h1 h2,
    fun pre rest n h1 h2 => read_vec_u8_upfront pre rest n h1 h2,
    fun pre rest n h1 h2 => read_vec_i8_truncated pre rest n h1 h2,
    fun pre rest n h1 h2 => read_vec_u16_truncated pre rest n h1 h2,
    fun pre rest n h1 h2 => read_vec_i16_truncated pre rest n h1 h2,
    fun pre rest n h1 h2 => read_vec_u32_truncated pre rest n h1 h2,
    fun pre rest n h1 h2 => read_vec_i32_truncated pre rest n h1 h2,
    fun pre rest n h1 h2 => read_vec_u64_truncated pre rest n h1 h2,
    fun pre rest n h1 h2 => read_vec_i64_truncated pre rest n h1 h2,
    fun pre rest n h1 h2 => read_vec_f32_truncated pre rest n h1 h2,
    fun pre rest n h1 h2 => read_vec_f64_truncated pre rest n h1 h2,
    fun pre post ss n e rf h1 h2 h3 h4 =>
      read_vec_string_first_fail pre post ss n e rf h1 h2 h3 h4⟩
  unfold BinaryReader.read_vec_u16
  rw [ensureRead_errOf 4 (fun r => fromLEBytes ((r.data.drop r.cursor).take 4))
    BinaryReader.read_u32 (fun _ => rfl) r hr]

/-- Witness for the amended C6: on `[3, 0, 0, 0, 7]` the u8-vector read
fails at the upfront payload check with the cursor at 4; on
`[2, 0, 0, 0, 1, 0, 5]` (two u16 elements declared, 3 payload bytes) the
u16-vector read consumes the one complete element and fails at the second,
with the cursor at 6. -/
theorem claim_C6_amended_witness :
    BinaryReader.read_vec_u8 ⟨[3, 0, 0, 0, 7], 0⟩ =
      (.error "Unexpected end of data", ⟨[3, 0, 0, 0, 7], 4⟩) ∧
    BinaryReader.read_vec_u16 ⟨[2, 0, 0, 0, 1, 0, 5], 0⟩ =
      (.error "Unexpected end of data", ⟨[2, 0, 0, 0, 1, 0, 5], 6⟩) :=
  ⟨claim_C6_amended.2.2.1 [] [7] 3 (by decide) (by decide),
   claim_C6_amended.2.2.2.2.1 [] [1, 0, 5] 2 (by decide) (by decide)⟩

/-- Claim C9: a fresh reader starts with cursor 0 within bounds; every read
operation (fixed-width, bool, string, every vector kind) keeps the buffer,
never moves the cursor backwards, and keeps `cursor ≤ length`, whether it
succeeds or fails (`PreservesCursor`); and every successful read advances
the cursor by exactly the byte count of its encoding rule (`AdvancesBy`):
the fixed width for primitives, 4 plus the payload length for strings and
u8 vectors, 4 plus element-size times element count for fixed-width
vectors, and 4 plus the sum of the per-string encodings for string
vectors. -/
theorem claim_C9 :
    (∀ data : List Nat, (BinaryReader.new data).cursor = 0 ∧
      (BinaryReader.new data).cursor ≤ (BinaryReader.new data).data.length) ∧
    PreservesCursor BinaryReader.read_u8 ∧
    PreservesCursor BinaryReader.read_i8 ∧
    PreservesCursor BinaryReader.read_u16 ∧
    PreservesCursor BinaryReader.read_i16 ∧
    PreservesCursor BinaryReader.read_u32 ∧
    PreservesCursor BinaryReader.read_i32 ∧
    PreservesCursor BinaryReader.read_u64 ∧
    PreservesCursor BinaryReader.read_i64 ∧
    PreservesCursor BinaryReader.read_f32 ∧
    PreservesCursor BinaryReader.read_f64 ∧
    (∀ r : BinaryReader, r.cursor ≤ r.data.length →
      (r.read_bool).2.data = r.data ∧ r.cursor ≤ (r.read_bool).2.cursor ∧
        (r.read_bool).2.cursor ≤ r.data.length) ∧
    PreservesCursor BinaryReader.read_string ∧
    PreservesCursor BinaryReader.read_vec_u8 ∧
    PreservesCursor BinaryReader.read_vec_u16 ∧
    PreservesCursor BinaryReader.read_vec_u32 ∧
    PreservesCursor BinaryReader.read_vec_u64 ∧
    PreservesCursor BinaryReader.read_vec_i8 ∧
    PreservesCursor BinaryReader.read_vec_i16 ∧
    PreservesCursor BinaryReader.read_vec_i32 ∧
    PreservesCursor BinaryReader.read_vec_i64 ∧
    PreservesCursor BinaryReader.read_vec_f32 ∧
    PreservesCursor BinaryReader.read_vec_f64 ∧
    PreservesCursor BinaryReader.read_vec_string ∧
    AdvancesBy BinaryReader.read_u8 (fun _ => 1) ∧
    AdvancesBy BinaryReader.read_i8 (fun _ => 1) ∧
    AdvancesBy BinaryReader.read_u16 (fun _ => 2) ∧
    AdvancesBy BinaryReader.read_i16 (fun _ => 2) ∧
    AdvancesBy BinaryReader.read_u32 (fun _ => 4) ∧
    AdvancesBy BinaryReader.read_i32 (fun _ => 4) ∧
    AdvancesBy BinaryReader.read_u64 (fun _ => 8) ∧
    AdvancesBy BinaryReader.read_i64 (fun _ => 8) ∧
    AdvancesBy BinaryReader.read_f32 (fun _ => 4) ∧
    AdvancesBy BinaryReader.read_f64 (fun _ => 8) ∧
    (∀ (r : BinaryReader) (b : Bool) (r1 : BinaryReader),
      r.read_bool = (.ok b, r1) → r1.data = r.data ∧ r1.cursor = r.cursor + 1) ∧
    AdvancesBy BinaryReader.read_string (fun s => 4 + s.length) ∧
    AdvancesBy BinaryReader.read_vec_u8 (fun v => 4 + v.length) ∧
    AdvancesBy BinaryReader.read_vec_u16 (fun v => 4 + 2 * v.length) ∧
    AdvancesBy BinaryReader.read_vec_u32 (fun v => 4 + 4 * v.length) ∧
    AdvancesBy BinaryReader.read_vec_u64 (fun v => 4 + 8 * v.length) ∧
    AdvancesBy BinaryReader.read_vec_i8 (fun v => 4 + v.length) ∧
    AdvancesBy BinaryReader.read_vec_i16 (fun v => 4 + 2 * v.length) ∧
    AdvancesBy BinaryReader.read_vec_i32 (fun v => 4 + 4 * v.length) ∧
    AdvancesBy BinaryReader.read_vec_i64 (fun v => 4 + 8 * v.length) ∧
    AdvancesBy BinaryReader.read_vec_f32 (fun v => 4 + 4 * v.length) ∧
    AdvancesBy BinaryReader.read_vec_f64 (fun v => 4 + 8 * v.length) ∧
    AdvancesBy BinaryReader.read_vec_string
      (fun v => 4 + (v.map (fun s => 4 + s.length)).sum) := by
  have pu8 := preserves_ensureRead 1 (fun r => r.data.getD r.cursor 0)
    BinaryReader.read_u8 (fun _ => rfl)
  have pi8 := preserves_ensureRead 1 (fun r => toSigned 8 (r.data.getD r.cursor 0))
    BinaryReader.read_i8 (fun _ => rfl)
  have pu16 := preserves_ensureRead 2 (fun r => fromLEBytes ((r.data.drop r.cursor).take 2))
    BinaryReader.read_u16 (fun _ => rfl)
  have pu32 := preserves_ensureRead 4 (fun r => fromLEBytes ((r.data.drop r.cursor).take 4))
    BinaryReader.read_u32 (fun _ => rfl)
  have pu64 := preserves_ensureRead 8 (fun r => fromLEBytes ((r.data.drop r.cursor).take 8))
    BinaryReader.read_u64 (fun _ => rfl)
  have pf32 := preserves_ensureRead 4 (fun r => fromLEBytes ((r.data.drop r.cursor).take 4))
    BinaryReader.read_f32 (fun _ => rfl)
  have pf64 := preserves_ensureRead 8 (fun r => fromLEBytes ((r.data.drop r.cursor).take 8))
    BinaryReader.read_f64 (fun _ => rfl)
  have au8 := advances_ensureRead 1 (fun r => r.data.getD r.cursor 0)
    BinaryReader.read_u8 (fun _ => rfl)
  have ai8 := advances_ensureRead 1 (fun r => toSigned 8 (r.data.getD r.cursor 0))
    BinaryReader.read_i8 (fun _ => rfl)
  have au16 := advances_ensureRead 2 (fun r => fromLEBytes ((r.data.drop r.cursor).take 2))
    BinaryReader.read_u16 (fun _ => rfl)
  have au32 := advances_ensureRead 4 (fun r => fromLEBytes ((r.data.drop r.cursor).take 4))
    BinaryReader.read_u32 (fun _ => rfl)
  have au64 := advances_ensureRead 8 (fun r => fromLEBytes ((r.data.drop r.cursor).take 8))
    BinaryReader.read_u64 (fun _ => rfl)
  have af32 := advances_ensureRead 4 (fun r => fromLEBytes ((r.data.drop r.cursor).take 4))
    BinaryReader.read_f32 (fun _ => rfl)
  have af64 := advances_ensureRead 8 (fun r => fromLEBytes ((r.data.drop r.cursor).take 8))
    BinaryReader.read_f64 (fun _ => rfl)
  refine ⟨fun data => ⟨rfl, by simp [BinaryReader.new]⟩,
    pu8, pi8, pu16, preserves_read_i16, pu32, preserves_read_i32, pu64,
    preserves_read_i64, pf32, pf64, read_bool_state, preserves_read_string,
    preserves_read_vec_u8,
    preserves_vec BinaryReader.read_u16 BinaryReader.read_vec_u16 (fun _ => rfl) pu16,
    preserves_vec BinaryReader.read_u32 BinaryReader.read_vec_u32 (fun _ => rfl) pu32,
    preserves_vec BinaryReader.read_u64 BinaryReader.read_vec_u64 (fun _ => rfl) pu64,
    preserves_vec BinaryReader.read_i8 BinaryReader.read_vec_i8 (fun _ => rfl) pi8,
    preserves_vec BinaryReader.read_i16 BinaryReader.read_vec_i16 (fun _ => rfl)
      preserves_read_i16,
    preserves_vec BinaryReader.read_i32 BinaryReader.read_vec_i32 (fun _ => rfl)
      preserves_read_i32,
    preserves_vec BinaryReader.read_i64 BinaryReader.read_vec_i64 (fun _ => rfl)
      preserves_read_i64,
    preserves_vec BinaryReader.read_f32 BinaryReader.read_vec_f32 (fun _ => rfl) pf32,
    preserves_vec BinaryReader.read_f64 BinaryReader.read_vec_f64 (fun _ => rfl) pf64,
    preserves_vec BinaryReader.read_string BinaryReader.read_vec_string (fun _ => rfl)
      preserves_read_string,
    au8, ai8, au16, advances_read_i16, au32, advances_read_i32, au64,
    advances_read_i64, af32, af64, read_bool_advances, advances_read_string,
    advances_read_vec_u8,
    ?_, ?_, ?_, ?_, ?_, ?_, ?_, ?_, ?_,
    advances_vec BinaryReader.read_string BinaryReader.read_vec_string (fun _ => rfl)
      (fun s => 4 + s.length) advances_read_string⟩
  · intro r v r1 h
    have hA := advances_vec BinaryReader.read_u16 BinaryReader.read_vec_u16 (fun _ => rfl)
      (fun _ => 2) au16 r v r1 h
    have h2 : r1.cursor = r.cursor + (4 + (v.map (fun _ => 2)).sum) := hA.2
    rw [sum_map_const 2 v] at h2
    exact ⟨hA.1, h2⟩
  · intro r v r1 h
    have hA := advances_vec BinaryReader.read_u32 BinaryReader.read_vec_u32 (fun _ => rfl)
      (fun _ => 4) au32 r v r1 h
    have h2 : r1.cursor = r.cursor + (4 + (v.map (fun _ => 4)).sum) := hA.2
    rw [sum_map_const 4 v] at h2
    exact ⟨hA.1, h2⟩
  · intro r v r1 h
    have hA := advances_vec BinaryReader.read_u64 BinaryReader.read_vec_u64 (fun _ => rfl)
      (fun _ => 8) au64 r v r1 h
    have h2 : r1.cursor = r.cursor + (4 + (v.map (fun _ => 8)).sum) := hA.2
    rw [sum_map_const 8 v] at h2
    exact ⟨hA.1, h2⟩
  · intro r v r1 h
    have hA := advances_vec BinaryReader.read_i8 BinaryReader.read_vec_i8 (fun _ => rfl)
      (fun _ => 1) ai8 r v r1 h
    have h2 : r1.cursor = r.cursor + (4 + (v.map (fun _ => 1)).sum) := hA.2
    rw [sum_map_const 1 v, Nat.one_mul] at h2
    exact ⟨hA.1, h2⟩
  · intro r v r1 h
    have hA := advances_vec BinaryReader.read_i16 BinaryReader.read_vec_i16 (fun _ => rfl)
      (fun _ => 2) advances_read_i16 r v r1 h
    have h2 : r1.cursor = r.cursor + (4 + (v.map (fun _ => 2)).sum) := hA.2
    rw [sum_map_const 2 v] at h2
    exact ⟨hA.1, h2⟩
  · intro r v r1 h
    have hA := advances_vec BinaryReader.read_i32 BinaryReader.read_vec_i32 (fun _ => rfl)
      (fun _ => 4) advances_read_i32 r v r1 h
    have h2 : r1.cursor = r.cursor + (4 + (v.map (fun _ => 4)).sum) := hA.2
    rw [sum_map_const 4 v] at h2
    exact ⟨hA.1, h2⟩
  · intro r v r1 h
    have hA := advances_vec BinaryReader.read_i64 BinaryReader.read_vec_i64 (fun _ => rfl)
      (fun _ => 8) advances_read_i64 r v r1 h
    have h2 : r1.cursor = r.cursor + (4 + (v.map (fun _ => 8)).sum) := hA.2
    rw [sum_map_const 8 v] at h2
    exact ⟨hA.1, h2⟩
  · intro r v r1 h
    have hA := advances_vec BinaryReader.read_f32 BinaryReader.read_vec_f32 (fun _ => rfl)
      (fun _ => 4) af32 r v r1 h
    have h2 : r1.cursor = r.cursor + (4 + (v.map (fun _ => 4)).sum) := hA.2
    rw [sum_map_const 4 v] at h2
    exact ⟨hA.1, h2⟩
  · intro r v r1 h
    have hA := advances_vec BinaryReader.read_f64 BinaryReader.read_vec_f64 (fun _ => rfl)
      (fun _ => 8) af64 r v r1 h
    have h2 : r1.cursor = r.cursor + (4 + (v.map (fun _ => 8)).sum) := hA.2
    rw [sum_map_const 8 v] at h2
    exact ⟨hA.1, h2⟩

/-- Witness for C9: concrete instances — a failed u16 read on a 1-byte
buffer stays at cursor 0 within bounds, and a successful u16 read on
`[7, 8]` advances the cursor by exactly 2. -/
theorem claim_C9_witness :
    ((BinaryReader.read_u16 ⟨[9], 0⟩).2.data = [9] ∧
      0 ≤ (BinaryReader.read_u16 ⟨[9], 0⟩).2.cursor ∧
      (BinaryReader.read_u16 ⟨[9], 0⟩).2.cursor ≤ 1) ∧
    ((⟨[7, 8], 2⟩ : BinaryReader).data = [7, 8] ∧
      (⟨[7, 8], 2⟩ : BinaryReader).cursor = 0 + 2) :=
  ⟨claim_C9.2.2.2.1 ⟨[9], 0⟩ (by decide),
   claim_C9.2.2.2.2.2.2.2.2.2.2.2.2.2.2.2.2.2.2.2.2.2.2.2.2.2.2.1
     ⟨[7, 8], 0⟩ 2055 ⟨[7, 8], 2⟩ rfl⟩

end BinIt
